import Mathlib

/-!
# Verification of the vxl-baby Level runtime against its specification

This development gives a shallow embedding, in Lean 4, of the entity / trigger /
editor subsystem of the vxl-baby game runtime, and proves (or refutes) the
frozen claims about it.

Embedding conventions:
* JavaScript `Map` objects are modelled as association lists with
  insert-or-replace semantics (`jsMapSet` / `jsMapGet` / `jsMapDelete`), which
  matches `Map.set` / `Map.get` / `Map.delete` exactly.
* `String.prototype.toLowerCase` is modelled by Lean's ASCII `String.toLower`;
  the repository only ever lowercases ASCII animation names and catalog keys.
* `String.prototype.includes` is modelled by `listIncludes` on the character
  lists.
* Object identity (JS reference equality) of animation groups is modelled by
  the group's position in the `animList` array.
* Side effects on the 3D engine (stopping, starting, releasing animation
  groups, disposing meshes and lights) are recorded as explicit event lists so
  that "no state change" and "no double release" become provable statements.
* `Math.sqrt`-based distance comparisons `dist < r` are embedded as the
  equivalent `0 ≤ r ∧ dist² < r²` on rationals.
-/

set_option autoImplicit false

namespace VxlBaby

/-! ## JS `Map` model -/

/-- Model of `Map.set k v`: replace the value of an existing key in place, otherwise
append the binding at the end (JS `Map` preserves insertion order). -/
def jsMapSet {α : Type} (m : List (String × α)) (k : String) (v : α) :
    List (String × α) :=
  if m.any (fun p => p.1 == k) then
    m.map (fun p => if p.1 == k then (p.1, v) else p)
  else
    m ++ [(k, v)]

/-- Model of `Map.get k`: the value bound to `k`, if any. -/
def jsMapGet {α : Type} (m : List (String × α)) (k : String) : Option α :=
  (m.find? (fun p => p.1 == k)).map (fun p => p.2)

/-- Whether `needle` occurs as a contiguous run inside `hay`. -/
def listIncludes (needle : List Char) : List Char → Bool
  | [] => needle.isEmpty
  | c :: rest => needle.isPrefixOf (c :: rest) || listIncludes needle rest

/-- Model of `str.includes(sub)`: substring containment. -/
def strIncludes (hay needle : String) : Bool :=
  listIncludes needle.toList hay.toList

/-! ## NPC wrapper (src/src/entities/NPC.ts)

An `AnimationGroup` is identified by its index in the `animList`; the only
datum of a group the wrapper inspects is its `name`. -/

/-- The mutable state of an `NPC` wrapper: its animation list (names, in array
order), the currently playing animation (`null` or a group, identified by its
index), and the `disposed` flag. -/
structure NPCState where
  anims : List String
  currentAnim : Option Nat
  disposed : Bool
  deriving Repr, DecidableEq

/-- Engine-side effects of the NPC wrapper, recorded as events. -/
inductive AnimEvent where
  | stopped (i : Nat)
  | started (i : Nat)
  | released (i : Nat)
  | meshDisposed
  deriving Repr, DecidableEq

/-- The `animMap` built in the NPC constructor: for each group, both its name
and its lowercased name are mapped to the group. -/
def buildAnimMap (anims : List String) : List (String × Nat) :=
  anims.enum.foldl
    (fun m p => jsMapSet (jsMapSet m p.2 p.1) p.2.toLower p.1) []

/-- The partial-match fallback of `playAnimation`:
`animList.find(a => a.name.toLowerCase().includes(name.toLowerCase()))`. -/
def findAnimSubstr (anims : List String) (name : String) : Option Nat :=
  (anims.enum.find? (fun p => strIncludes p.2.toLower name.toLower)).map
    (fun p => p.1)

/-- The animation group `playAnimation name` resolves to:
`animMap.get(name) || animMap.get(name.toLowerCase())`, then the
substring-match fallback over the full list. -/
def NPCState.resolveAnim (s : NPCState) (name : String) : Option Nat :=
  match jsMapGet (buildAnimMap s.anims) name with
  | some i => some i
  | none =>
    match jsMapGet (buildAnimMap s.anims) name.toLower with
    | some i => some i
    | none => findAnimSubstr s.anims name

/-- Model of `stopAll()`: stop every group in the animation list and clear
`currentAnim`. -/
def NPCState.stopAll (s : NPCState) : NPCState × List AnimEvent :=
  ({ s with currentAnim := none },
   s.anims.enum.map (fun p => AnimEvent.stopped p.1))

/-- Model of `playAnimGroup(anim, loop)`: no-op returning `true` when `anim` is already
the current animation; otherwise stop everything, start `anim`, record it as
current, and return `true`. -/
def NPCState.playAnimGroup (s : NPCState) (i : Nat) :
    Bool × NPCState × List AnimEvent :=
  if s.currentAnim = some i then
    (true, s, [])
  else
    (true, { s with currentAnim := some i },
     (s.stopAll).2 ++ [AnimEvent.started i])

/-- Model of `playAnimation(name, loop)`: `false` without any state change on a disposed
NPC; otherwise resolve the name (exact map hit, lowercased map hit, substring
fallback) and play the resolved group, or return `false` if nothing matched. -/
def NPCState.playAnimation (s : NPCState) (name : String) :
    Bool × NPCState × List AnimEvent :=
  if s.disposed then
    (false, s, [])
  else
    match s.resolveAnim name with
    | some i => s.playAnimGroup i
    | none => (false, s, [])

/-- Model of `dispose()`: guarded by the `disposed` flag; stops all animations, releases
every animation group, and disposes the mesh, exactly once. -/
def NPCState.dispose (s : NPCState) : NPCState × List AnimEvent :=
  if s.disposed then
    (s, [])
  else
    ({ s with disposed := true, currentAnim := none },
     (s.stopAll).2 ++ s.anims.enum.map (fun p => AnimEvent.released p.1) ++
       [AnimEvent.meshDisposed])

/-! ## Portal entity (src/unnamed/part_000, second revision)

Only the lifecycle-relevant state is modelled: the `disposed` flag, whether the
per-frame render observer is attached, whether the click `ActionManager` is
attached, and the editor-mode flag. -/

structure PortalState where
  disposed : Bool
  observerAttached : Bool
  actionManagerAttached : Bool
  editorMode : Bool
  deriving Repr, DecidableEq

/-- Engine-side effects of `Portal.dispose`. -/
inductive PortalEvent where
  | observerRemoved
  | lightDisposed
  | materialDisposed
  | actionManagerDisposed
  | meshDisposed
  deriving Repr, DecidableEq

/-- Model of `Portal.dispose()`: guarded by the `disposed` flag; removes the render
observer (if attached), disposes the light, the material, the action manager
(if attached), and the mesh, exactly once. -/
def PortalState.dispose (s : PortalState) : PortalState × List PortalEvent :=
  if s.disposed then
    (s, [])
  else
    ({ s with disposed := true, observerAttached := false,
              actionManagerAttached := false },
     (if s.observerAttached then [PortalEvent.observerRemoved] else []) ++
       [PortalEvent.lightDisposed, PortalEvent.materialDisposed] ++
       (if s.actionManagerAttached then [PortalEvent.actionManagerDisposed]
        else []) ++
       [PortalEvent.meshDisposed])

/-! ## JS `Map<number, _>` model (the integer-indexed entity registries) -/

/-- Model of `Map.set` for integer keys. -/
def natMapSet {α : Type} (m : List (Nat × α)) (k : Nat) (v : α) :
    List (Nat × α) :=
  if m.any (fun p => p.1 == k) then
    m.map (fun p => if p.1 == k then (p.1, v) else p)
  else
    m ++ [(k, v)]

/-- Model of `Map.get` for integer keys. -/
def natMapGet {α : Type} (m : List (Nat × α)) (k : Nat) : Option α :=
  (m.find? (fun p => p.1 == k)).map (fun p => p.2)

/-- Model of `Map.delete` for integer keys. -/
def natMapDelete {α : Type} (m : List (Nat × α)) (k : Nat) :
    List (Nat × α) :=
  m.filter (fun p => !(p.1 == k))

/-! ## Live entity registries (src/src/game/levels/Level.ts)

A live NPC/portal/prop is identified by the id of its underlying scene object
(`objId`, standing in for JS reference identity); `metaIndex` is the entity
index embedded in `mesh.metadata.index`, and `nameId` is `mesh.metadata.id`. -/

/-- A live NPC wrapper as the registry sees it. -/
structure LiveNPC where
  objId : Nat
  metaIndex : Nat
  nameId : Option String
  deriving Repr, DecidableEq

/-- A live portal as the registry sees it. -/
structure LivePortal where
  objId : Nat
  metaIndex : Nat
  deriving Repr, DecidableEq

/-- A live prop (its root mesh) as the registry sees it. -/
structure LiveProp where
  objId : Nat
  metaIndex : Nat
  deriving Repr, DecidableEq

/-- The five index structures of the Level runtime. -/
structure Registries where
  npcs : List (Nat × LiveNPC)
  portals : List (Nat × LivePortal)
  props : List (Nat × LiveProp)
  entityMeshIndex : List (Nat × Nat)
  npcNameIndex : List (String × Nat)
  deriving Repr, DecidableEq

/-- The empty registries (state after `disposeAllEntities`). -/
def Registries.empty : Registries :=
  ⟨[], [], [], [], []⟩

/-! ### Bulk load (`spawnAllEntities` / `spawnEntityAtIndex`)

Whether the factory / asset load for one entity throws is external
nondeterminism; it is supplied as an `Except` per spawn. On success Babylon's
mesh import always yields a root mesh, so a successful load carries the
spawned object's id. -/

/-- One entity spawn of the level document, paired with the outcome of its
asset resolution/load: `Except.error` means the spawn threw (it is caught and
logged), `Except.ok objId` means it produced a live object. Portals load no
asset and never throw. -/
inductive LoadOutcome where
  | npcSpawn (name entityKey asset : Option String) (factory : Except Unit Nat)
  | portalSpawn (objId : Nat)
  | propSpawn (factory : Except Unit Nat)
  deriving Repr

/-- JS `a || b || ...` over possibly-missing strings: the first present,
non-empty string (an empty string is falsy). -/
def firstTruthy : List (Option String) → Option String
  | [] => none
  | none :: rest => firstTruthy rest
  | some s :: rest => if s == "" then firstTruthy rest else some s

/-- Model of `spawnEntityAtIndex(index, spawn)`: the `try`/`catch` around the
per-variant spawn helpers. A throwing spawn leaves the registries unchanged. -/
def spawnEntityAtIndex (st : Registries) (index : Nat) (s : LoadOutcome) :
    Registries :=
  match s with
  | LoadOutcome.npcSpawn name entityKey asset factory =>
    match factory with
    | Except.error _ => st
    | Except.ok objId =>
      let resolvedName :=
        (firstTruthy [name, entityKey, asset]).getD
          ("npc_" ++ toString index)
      { st with
        npcs := natMapSet st.npcs index
          ⟨objId, index, some resolvedName⟩,
        npcNameIndex := jsMapSet st.npcNameIndex resolvedName objId,
        entityMeshIndex := natMapSet st.entityMeshIndex index objId }
  | LoadOutcome.portalSpawn objId =>
    { st with
      portals := natMapSet st.portals index ⟨objId, index⟩,
      entityMeshIndex := natMapSet st.entityMeshIndex index objId }
  | LoadOutcome.propSpawn factory =>
    match factory with
    | Except.error _ => st
    | Except.ok objId =>
      { st with
        props := natMapSet st.props index ⟨objId, index⟩,
        entityMeshIndex := natMapSet st.entityMeshIndex index objId }

/-- The spawn loop of `spawnAllEntities`, starting at index `i`. -/
def spawnLoop (st : Registries) (i : Nat) : List LoadOutcome → Registries
  | [] => st
  | s :: rest => spawnLoop (spawnEntityAtIndex st i s) (i + 1) rest

/-- Model of `spawnAllEntities()`: dispose everything, then spawn each entity of the
document in order by index. -/
def spawnAllEntities (spawns : List LoadOutcome) : Registries :=
  spawnLoop Registries.empty 0 spawns

/-- Whether a spawn did not throw during resolution / asset load. -/
def LoadOutcome.succeeded : LoadOutcome → Bool
  | LoadOutcome.npcSpawn _ _ _ (Except.ok _) => true
  | LoadOutcome.npcSpawn _ _ _ (Except.error _) => false
  | LoadOutcome.portalSpawn _ => true
  | LoadOutcome.propSpawn (Except.ok _) => true
  | LoadOutcome.propSpawn (Except.error _) => false

/-! ### Live removal (`removeEntityLive` / `reindexEntities`)

`reindexEntities` in src/src/game/levels/Level.ts clears each (readonly) map
and only then evaluates `reindex(this.npcs)` on it, so the helper always
iterates an already-empty map. The embedding reproduces this order of
operations literally. -/

/-- The `reindex` helper: rebuild a map shifting keys above `removedIndex`
down by one (and apply the update function; the caller's loop does both the
re-insertion and the metadata rewrite). -/
def reindexMap {α : Type} (m : List (Nat × α)) (removedIndex : Nat)
    (upd : α → Nat → α) : List (Nat × α) :=
  m.foldl
    (fun acc p =>
      let newIdx := if p.1 > removedIndex then p.1 - 1 else p.1
      natMapSet acc newIdx (upd p.2 newIdx))
    []

/-- Model of `reindexEntities(removedIndex)` as written in
src/src/game/levels/Level.ts: each registry is cleared *before* the `reindex`
helper reads it (`this.npcs.clear(); for (... of reindex(this.npcs))`), so
every loop iterates zero entries, and the mesh index is then rebuilt from the
(empty) registries. -/
def Registries.reindexEntities (st : Registries) (removedIndex : Nat) :
    Registries :=
  let npcs' := reindexMap ([] : List (Nat × LiveNPC)) removedIndex
    (fun e i => { e with metaIndex := i })
  let portals' := reindexMap ([] : List (Nat × LivePortal)) removedIndex
    (fun e i => { e with metaIndex := i })
  let props' := reindexMap ([] : List (Nat × LiveProp)) removedIndex
    (fun e i => { e with metaIndex := i })
  let meshIndex' :=
    let m1 := npcs'.foldl
      (fun (acc : List (Nat × Nat)) (p : Nat × LiveNPC) =>
        natMapSet acc p.1 p.2.objId) []
    let m2 := portals'.foldl
      (fun (acc : List (Nat × Nat)) (p : Nat × LivePortal) =>
        natMapSet acc p.1 p.2.objId) m1
    props'.foldl
      (fun (acc : List (Nat × Nat)) (p : Nat × LiveProp) =>
        natMapSet acc p.1 p.2.objId) m2
  { st with npcs := npcs', portals := portals', props := props',
            entityMeshIndex := meshIndex' }

/-- Model of `removeEntityLive(index)`: dispose and remove whichever registry holds the
index, drop its name-index and mesh-index entries, then reindex. -/
def Registries.removeEntityLive (st : Registries) (index : Nat) :
    Registries :=
  let st1 :=
    match natMapGet st.npcs index with
    | some npc =>
      let nameIdx :=
        match npc.nameId with
        | some name =>
          st.npcNameIndex.filter (fun (p : String × Nat) => !(p.1 == name))
        | none => st.npcNameIndex
      { st with npcNameIndex := nameIdx, npcs := natMapDelete st.npcs index }
    | none => st
  let st2 :=
    match natMapGet st1.portals index with
    | some _ => { st1 with portals := natMapDelete st1.portals index }
    | none => st1
  let st3 :=
    match natMapGet st2.props index with
    | some _ => { st2 with props := natMapDelete st2.props index }
    | none => st2
  let st4 :=
    { st3 with entityMeshIndex := natMapDelete st3.entityMeshIndex index }
  st4.reindexEntities index

/-! ## Entity factory (src/src/factories/EntityFactory.ts) and the
`ENTITIES` catalog (src/unnamed/part_006) -/

/-- The `idleAnimation` field of a catalog entry: a string or a string
array. -/
inductive IdleAnim where
  | single (s : String)
  | multi (l : List String)
  deriving Repr, DecidableEq

/-- An NPC catalog entry / resolved spawn configuration. -/
structure NPCConfig where
  asset : String
  scale : ℚ
  idleAnimation : IdleAnim
  castShadow : Bool
  deriving Repr, DecidableEq

/-- A portal catalog entry. -/
structure PortalCatalogEntry where
  diameter : ℚ
  color : ℚ × ℚ × ℚ
  lightIntensity : ℚ
  lightRange : ℚ
  deriving Repr, DecidableEq

/-- A catalog entry: the `EntityConfig` tagged union. -/
inductive EntityConfigE where
  | npc (c : NPCConfig)
  | portal (c : PortalCatalogEntry)
  deriving Repr, DecidableEq

/-- The `ENTITIES` catalog (keys in object-literal order). -/
def ENTITIES : List (String × EntityConfigE) :=
  [("wife", EntityConfigE.npc
      ⟨"/assets/wife.glb", (19 : ℚ) / 20,
       IdleAnim.multi ["Idle", "idle"], true⟩),
   ("demon", EntityConfigE.npc
      ⟨"/assets/Demon.glb", 2,
       IdleAnim.single "CharacterArmature|Idle", true⟩),
   ("portal", EntityConfigE.portal
      ⟨(3 : ℚ) / 2, (0, (4 : ℚ) / 5, 1), 5, 10⟩)]

/-- Model of `DEFAULT_NPC_CONFIG` (without the asset). -/
def defaultNPCPolicy (asset : String) : NPCConfig :=
  ⟨asset, 1, IdleAnim.multi ["Idle", "idle"], true⟩

/-- The factory's spawn options; only `entityKey` and `asset` participate in
config resolution (position / scale / animation overrides are passed through
unchanged and are omitted here). -/
structure SpawnNPCOptions where
  entityKey : Option String
  asset : Option String
  deriving Repr, DecidableEq

/-- JS truthiness of an optional string: present and non-empty. -/
def optTruthy : Option String → Bool
  | none => false
  | some s => !(s == "")

/-- Model of `findEntityKey(key)`: the first catalog key equal to `key` up to case. -/
def findEntityKey (key : String) : Option String :=
  (ENTITIES.map (fun p => p.1)).find? (fun k => k.toLower == key.toLower)

/-- Model of `normalizeAssetPath(path)`. -/
def normalizeAssetPath (path : String) : String :=
  if path.startsWith "/assets/" then path
  else if path.startsWith "/" then path
  else "/assets/" ++ path

/-- Model of `resolveNPCConfig(options)`: case-insensitive catalog lookup of
`entityKey` (accepted only when the entry is an NPC entry), else the direct
asset path with the generic default policy, else an invalid-spawn-spec
error. -/
def resolveNPCConfig (o : SpawnNPCOptions) : Except Unit NPCConfig :=
  let keyStep : Option NPCConfig :=
    if optTruthy o.entityKey then
      match findEntityKey (o.entityKey.getD "") with
      | some key =>
        match jsMapGet ENTITIES key with
        | some (EntityConfigE.npc c) => some c
        | _ => none
      | none => none
    else none
  match keyStep with
  | some c => Except.ok c
  | none =>
    if optTruthy o.asset then
      Except.ok (defaultNPCPolicy (normalizeAssetPath (o.asset.getD "")))
    else
      Except.error ()

/-- The resolution contract as the specification words it: a case-insensitive
catalog lookup of the entity key yielding that (NPC) entry's canonical
asset and policy; otherwise the direct asset path, normalized, with the
generic default policy; otherwise the invalid-spawn-spec error. This
definition follows the spec text and is compared with `resolveNPCConfig`,
which follows the source. -/
def resolveNPCConfigSpec (o : SpawnNPCOptions) : Except Unit NPCConfig :=
  let isNpcEntry : String × EntityConfigE → Bool := fun p =>
    match p.2 with
    | EntityConfigE.npc _ => true
    | EntityConfigE.portal _ => false
  let catalogHit : Option NPCConfig :=
    if optTruthy o.entityKey then
      match ENTITIES.find?
          (fun p =>
            p.1.toLower == (o.entityKey.getD "").toLower && isNpcEntry p) with
      | some (_, EntityConfigE.npc c) => some c
      | _ => none
    else none
  match catalogHit with
  | some c => Except.ok c
  | none =>
    if optTruthy o.asset then
      Except.ok (defaultNPCPolicy (normalizeAssetPath (o.asset.getD "")))
    else
      Except.error ()

/-! ## Per-frame update state machine (src/src/game/levels/Level.ts)

The Level state visible to `onUpdate` and its helpers. Positions are rational
3-vectors; `dist < r` comparisons are embedded as `0 ≤ r ∧ dist² < r²`. -/

/-- A position in space. -/
def Vec3 : Type := ℚ × ℚ × ℚ

instance : DecidableEq Vec3 := by
  unfold Vec3
  infer_instance

instance : Repr Vec3 := by
  unfold Vec3
  infer_instance

/-- Squared Euclidean distance. -/
def distSq (a b : Vec3) : ℚ :=
  (a.1 - b.1) ^ 2 + (a.2.1 - b.2.1) ^ 2 + (a.2.2 - b.2.2) ^ 2

/-- Model of `Vector3.Distance(a, b) < r`, expressed without square roots. -/
def vecDistLt (a b : Vec3) (r : ℚ) : Bool :=
  decide (0 ≤ r ∧ distSq a b < r * r)

/-- A trigger of the level document (the `Trigger` union has the single
`proximity` variant). -/
inductive TickTriggerAction where
  | playDialogue (value : String)
  | playSound (value : String)
  | setSpotlightIntensity (value : ℚ)
  deriving Repr, DecidableEq

structure ProximityTrigger where
  target : String
  radius : ℚ
  once : Bool
  actions : List TickTriggerAction
  deriving Repr, DecidableEq

/-- A declared per-frame effect (`LevelEffect` union). -/
inductive LevelEffect where
  | flicker (target : String) (chance : ℚ) (lowRange highRange : ℚ × ℚ)
  | cameraShake (intensity : ℚ)
  | heartbeatVignette (speed baseWeight amplitude : ℚ)
  | spotlightOverride (intensity : ℚ)
  deriving Repr, DecidableEq

/-- The fields of an `NPCSpawn` record read by the proximity/interaction
path. -/
structure NPCSpawnSim where
  name : Option String
  interactionSound : Option String
  animIdle : Option String
  animInteract : Option String
  scriptSource : Option String
  dialogue : List String
  successDialogue : List String
  deriving Repr, DecidableEq

/-- One entry of `levelConfig.entities` as the update path sees it. -/
inductive EntitySpawnSim where
  | npc (spec : NPCSpawnSim)
  | portal
  | prop
  deriving Repr, DecidableEq

/-- The Level runtime state touched by `onUpdate`. -/
structure LevelSt where
  isEditorMode : Bool
  playerPos : Option Vec3
  playerSpotIntensity : ℚ
  flashlightIntensity : ℚ
  vignetteWeight : Option ℚ
  camRotX : ℚ
  camRotY : ℚ
  effectTime : ℚ
  dialogueActive : Bool
  registeredDialogues : List String
  entities : List EntitySpawnSim
  npcs : List (Nat × Vec3)
  npcNameIndex : List (String × Vec3)
  npcDialogueTriggered : List Nat
  currentInteractingNPC : Option Nat
  triggers : List ProximityTrigger
  triggerStates : List Bool
  effects : List LevelEffect
  deriving Repr, DecidableEq

/-- Observable actions of one update tick. -/
inductive TickEvent where
  | npcDispatched (i : Nat)
  | soundPlayed (s : String)
  | dialoguePlayed (id : String)
  | dialogueNotFound (id : String)
  | scriptStarted (source : String)
  | animPlayed (i : Nat) (name : String)
  | triggerFired (idx : Nat)
  deriving Repr, DecidableEq

/-- JS `Set.add`. -/
def setAdd (s : List Nat) (i : Nat) : List Nat :=
  if s.contains i then s else s ++ [i]

/-- JS `Set.delete`. -/
def setDelete (s : List Nat) (i : Nat) : List Nat :=
  s.filter (fun j => !(j == i))

/-- Model of `DialogueManager.register`: record the dialogue id. -/
def registerDialogue (st : LevelSt) (id : String) : LevelSt :=
  if st.registeredDialogues.contains id then st
  else { st with registeredDialogues := st.registeredDialogues ++ [id] }

/-- Model of `DialogueManager.play(id)`: warn when the id is unknown, otherwise become
active. -/
def playDialogue (st : LevelSt) (id : String) : LevelSt × List TickEvent :=
  if st.registeredDialogues.contains id then
    ({ st with dialogueActive := true }, [TickEvent.dialoguePlayed id])
  else
    (st, [TickEvent.dialogueNotFound id])

/-- Model of `handleNPCInteraction(index, spawn)`: record the interacting NPC, play the
interaction sound and looping interact animation when configured, then start
the custom script, the standard dialogue, or the legacy success dialogue (the
first of these that is present). -/
def handleNPCInteraction (st : LevelSt) (index : Nat) (spec : NPCSpawnSim) :
    LevelSt × List TickEvent :=
  let st0 := { st with currentInteractingNPC := some index }
  let soundEvents :=
    match spec.interactionSound with
    | some snd => [TickEvent.soundPlayed snd]
    | none => []
  let animEvents :=
    match spec.animInteract with
    | some anim =>
      if (st0.npcs.find? (fun p => p.1 == index)).isSome then
        [TickEvent.animPlayed index anim]
      else []
    | none => []
  let pre := TickEvent.npcDispatched index :: soundEvents ++ animEvents
  match spec.scriptSource with
  | some src =>
    ({ st0 with dialogueActive := true },
     pre ++ [TickEvent.scriptStarted src])
  | none =>
    if !spec.dialogue.isEmpty then
      let id := "npc_" ++ toString index ++ "_default"
      let st1 := registerDialogue st0 id
      let r := playDialogue st1 id
      (r.1, pre ++ r.2)
    else if !spec.successDialogue.isEmpty then
      let id := "npc_" ++ toString index ++ "_success"
      let st1 := registerDialogue st0 id
      let r := playDialogue st1 id
      (r.1, pre ++ r.2)
    else
      (st0, pre)

/-- The interaction radius constant. -/
def INTERACTION_RADIUS : ℚ := 3

/-- The scan loop of `checkNPCProximity`, over the remaining entities starting
at index `i`: dispatch the first in-range not-yet-triggered NPC and stop;
re-arm (delete from the triggered set) any triggered NPC the player has left;
otherwise keep scanning. -/
def proxScan (pos : Vec3) (st : LevelSt) :
    List EntitySpawnSim → Nat → LevelSt × List TickEvent
  | [], _ => (st, [])
  | spawn :: rest, i =>
    match spawn with
    | EntitySpawnSim.npc spec =>
      match natMapGet st.npcs i with
      | none => proxScan pos st rest (i + 1)
      | some npcPos =>
        let inRange := vecDistLt pos npcPos INTERACTION_RADIUS
        let wasTriggered := st.npcDialogueTriggered.contains i
        if inRange && !wasTriggered then
          handleNPCInteraction
            { st with npcDialogueTriggered :=
                setAdd st.npcDialogueTriggered i } i spec
        else if !inRange && wasTriggered then
          proxScan pos
            { st with npcDialogueTriggered :=
                setDelete st.npcDialogueTriggered i } rest (i + 1)
        else
          proxScan pos st rest (i + 1)
    | _ => proxScan pos st rest (i + 1)

/-- Model of `checkNPCProximity()`: no-op without a player or while a dialogue/script is
active, otherwise scan the entity list from index 0. -/
def checkNPCProximity (st : LevelSt) : LevelSt × List TickEvent :=
  match st.playerPos with
  | none => (st, [])
  | some pos =>
    if st.dialogueActive then (st, [])
    else proxScan pos st st.entities 0

/-- Model of `checkInteractionState()`: when the dialogue has ended, restore the
interacting NPC's idle animation and clear `currentInteractingNPC`. -/
def checkInteractionState (st : LevelSt) : LevelSt × List TickEvent :=
  match st.currentInteractingNPC with
  | none => (st, [])
  | some i =>
    if st.dialogueActive then (st, [])
    else
      let events :=
        match st.entities.get? i with
        | some (EntitySpawnSim.npc spec) =>
          match natMapGet st.npcs i, spec.animIdle with
          | some _, some idle => [TickEvent.animPlayed i idle]
          | some _, none => [TickEvent.animPlayed i "idle"]
          | none, _ => []
        | _ =>
          match natMapGet st.npcs i with
          | some _ => [TickEvent.animPlayed i "idle"]
          | none => []
      ({ st with currentInteractingNPC := none }, events)

/-- Model of `executeTriggerActions(actions)`: run the action list in order. -/
def executeTriggerActions (st : LevelSt) :
    List TickTriggerAction → LevelSt × List TickEvent
  | [] => (st, [])
  | TickTriggerAction.playDialogue v :: rest =>
    let r := playDialogue st v
    let r2 := executeTriggerActions r.1 rest
    (r2.1, r.2 ++ r2.2)
  | TickTriggerAction.playSound v :: rest =>
    let r2 := executeTriggerActions st rest
    (r2.1, TickEvent.soundPlayed v :: r2.2)
  | TickTriggerAction.setSpotlightIntensity v :: rest =>
    let st1 :=
      if st.playerPos.isSome then { st with playerSpotIntensity := v }
      else st
    let r2 := executeTriggerActions st1 rest
    (r2.1, r2.2)

/-- The loop body of `processTriggers`, over the `(trigger, state)` pairs with
their positions: skip a fired `once` trigger, resolve the target NPC by name,
and fire when the player is inside the radius. Returns the updated states in
order. -/
def triggerLoop (pos : Vec3) (st : LevelSt) :
    List (ProximityTrigger × Bool) → Nat →
      LevelSt × List Bool × List TickEvent
  | [], _ => (st, [], [])
  | (t, fired) :: rest, idx =>
    if t.once && fired then
      let r := triggerLoop pos st rest (idx + 1)
      (r.1, fired :: r.2.1, r.2.2)
    else
      match jsMapGet st.npcNameIndex t.target with
      | none =>
        let r := triggerLoop pos st rest (idx + 1)
        (r.1, fired :: r.2.1, r.2.2)
      | some npcPos =>
        if vecDistLt pos npcPos t.radius then
          let r1 := executeTriggerActions st t.actions
          let r := triggerLoop pos r1.1 rest (idx + 1)
          (r.1, true :: r.2.1,
           TickEvent.triggerFired idx :: r1.2 ++ r.2.2)
        else
          let r := triggerLoop pos st rest (idx + 1)
          (r.1, fired :: r.2.1, r.2.2)

/-- Model of `processTriggers()`: no-op without a player; otherwise run the trigger
loop and store the updated per-trigger states. -/
def processTriggers (st : LevelSt) : LevelSt × List TickEvent :=
  match st.playerPos with
  | none => (st, [])
  | some pos =>
    let r := triggerLoop pos st (st.triggers.zip st.triggerStates) 0
    ({ r.1 with triggerStates := r.2.1 }, r.2.2)

/-- Model of `initializeTriggers()`: arm every declared trigger. -/
def initializeTriggers (st : LevelSt) : LevelSt :=
  { st with triggerStates := List.replicate st.triggers.length false }

/-- Draw the next `Math.random()` value from the supplied stream. -/
def rngNext : List ℚ → ℚ × List ℚ
  | [] => (0, [])
  | x :: rest => (x, rest)

/-- Model of `applyEffect(effect)`, parameterized by the `Math.sin` function and the
`Math.random()` stream. -/
def applyEffect (sine : ℚ → ℚ) (st : LevelSt) (rng : List ℚ) :
    LevelEffect → LevelSt × List ℚ
  | LevelEffect.spotlightOverride intensity =>
    if st.playerPos.isSome then
      ({ st with playerSpotIntensity := intensity }, rng)
    else (st, rng)
  | LevelEffect.flicker target chance lowRange highRange =>
    if target == "flashlight" then
      let d1 := rngNext rng
      let range := if d1.1 < chance then lowRange else highRange
      let d2 := rngNext d1.2
      ({ st with flashlightIntensity :=
          range.1 + d2.1 * (range.2 - range.1) }, d2.2)
    else (st, rng)
  | LevelEffect.heartbeatVignette speed baseWeight amplitude =>
    match st.vignetteWeight with
    | some _ =>
      let t := st.effectTime * speed
      let heartbeat := (sine t + sine (t * 2) + sine (t * (1 / 2))) / 3
      let vw := some (baseWeight + heartbeat * amplitude)
      ({ st with vignetteWeight := vw }, rng)
    | none => (st, rng)
  | LevelEffect.cameraShake intensity =>
    let d1 := rngNext rng
    let d2 := rngNext d1.2
    ({ st with camRotX := st.camRotX + (d1.1 - 1 / 2) * intensity,
               camRotY := st.camRotY + (d2.1 - 1 / 2) * intensity }, d2.2)

/-- The fold of `processEffects` over the declared effects. -/
def applyEffects (sine : ℚ → ℚ) (st : LevelSt) (rng : List ℚ) :
    List LevelEffect → LevelSt × List ℚ
  | [] => (st, rng)
  | e :: rest =>
    let r := applyEffect sine st rng e
    applyEffects sine r.1 r.2 rest

/-- Model of `processEffects()`: advance the effect-time accumulator by the engine
delta time, then apply every declared effect in order. -/
def processEffects (sine : ℚ → ℚ) (dt : ℚ) (st : LevelSt) (rng : List ℚ) :
    LevelSt × List ℚ :=
  applyEffects sine { st with effectTime := st.effectTime + dt } rng
    st.effects

/-- Model of `onUpdate()`: outside editor mode run the NPC proximity scan and the
interaction-state check; in every mode process the declarative triggers and
the declared effects. -/
def onUpdate (sine : ℚ → ℚ) (dt : ℚ) (st : LevelSt) (rng : List ℚ) :
    LevelSt × List TickEvent :=
  let r1 :=
    if !st.isEditorMode then
      let a := checkNPCProximity st
      let b := checkInteractionState a.1
      (b.1, a.2 ++ b.2)
    else (st, [])
  let r2 := processTriggers r1.1
  let r3 := processEffects sine dt r2.1 rng
  (r3.1, r1.2 ++ r2.2)

/-! ## Quest graph execution (src/unnamed/part_008, `executeQuestGraph`)

The walk is embedded synchronously: a played dialogue's `onComplete`
continuation runs immediately after its event, and a presented choice pauses
the walk, returning the id of the choice node awaiting selection. Recursion is
bounded by explicit fuel (the source recursion is unbounded; all theorems use
concrete graphs with adequate fuel). -/

/-- An output slot of a graph node: the link ids leaving it. -/
structure QGOutput where
  links : List Nat
  deriving Repr, DecidableEq

/-- A quest graph node: its id, type tag, LiteGraph widget values, the
properties the interpreter reads, and its output slots. -/
structure QGNode where
  id : Nat
  ntype : String
  widgets_values : List String
  propText : Option String
  propPrompt : Option String
  propOptions : Option (List String)
  propCheckType : Option String
  outputs : List QGOutput
  deriving Repr, DecidableEq

/-- A quest graph: nodes plus raw LiteGraph link arrays
`[linkId, fromNode, fromSlot, toNode, ...]`. -/
structure QuestGraph where
  nodes : List QGNode
  links : List (List Nat)
  deriving Repr, DecidableEq

/-- A parsed link: origin node, target node, origin slot. -/
structure ParsedLink where
  lfrom : Nat
  lto : Nat
  lslot : Nat
  deriving Repr, DecidableEq

/-- Model of `parseQuestLinks(links)`: keep arrays of length at least 4, keyed by the
link id. -/
def parseQuestLinks (links : List (List Nat)) : List (Nat × ParsedLink) :=
  links.foldl
    (fun m link =>
      match link with
      | lid :: lfrom :: lslot :: lto :: _ =>
        natMapSet m lid ⟨lfrom, lto, lslot⟩
      | _ => m)
    []

/-- Model of `getNode(id)`. -/
def getQGNode (g : QuestGraph) (id : Nat) : Option QGNode :=
  g.nodes.find? (fun n => n.id == id)

/-- Model of `getNextNode(node, slotIndex)`: follow the first link of the given output
slot. -/
def getNextNode (g : QuestGraph) (lm : List (Nat × ParsedLink))
    (node : QGNode) (slot : Nat) : Option QGNode :=
  match node.outputs.get? slot with
  | none => none
  | some out =>
    match out.links.head? with
    | none => none
    | some linkId =>
      match natMapGet lm linkId with
      | none => none
      | some pl => getQGNode g pl.lto

/-- Observable actions of a quest graph walk. -/
inductive QEvent where
  | dialoguePlayed (lines : List (String × String))
  | choicePresented (prompt : String) (options : List String)
  | stopDialogue
  | giveLogged
  | warnUnknown (t : String)
  | warnEmptyGraph
  | warnNoStart
  deriving Repr, DecidableEq

/-- Result of (a segment of) a quest graph walk: the emitted events, the
choice node awaiting a selection (if the walk paused at one), and the
remaining `Math.random()` stream. -/
structure QGRun where
  events : List QEvent
  pending : Option Nat
  rng : List ℚ
  deriving Repr, DecidableEq

mutual

/-- Model of `runStep(nodeId)`: execute one node and continue along its links. -/
def runStep (g : QuestGraph) (lm : List (Nat × ParsedLink))
    (speaker : String) : Nat → Nat → List ℚ → QGRun
  | 0, _, rng => ⟨[], none, rng⟩
  | fuel + 1, nodeId, rng =>
    match getQGNode g nodeId with
    | none => ⟨[], none, rng⟩
    | some node =>
      if node.ntype == "Dialog/Start" then
        match getNextNode g lm node 0 with
        | some nxt => runStep g lm speaker fuel nxt.id rng
        | none => ⟨[], none, rng⟩
      else if node.ntype == "Dialog/Say" then
        sayChain g lm speaker fuel node rng []
      else if node.ntype == "Dialog/Choice" then
        let prompt := node.propPrompt.getD "Choose..."
        let options := node.propOptions.getD ["Yes", "No"]
        let choices := (options.take 3).enum.map
          (fun p => if p.2 == "" then "Option " ++ toString (p.1 + 1)
                    else p.2)
        ⟨[QEvent.choicePresented prompt choices], some nodeId, rng⟩
      else if node.ntype == "Dialog/Check" then
        let rr :=
          if node.propCheckType == some "Level" then (true, rng)
          else
            let d := rngNext rng
            (decide ((1 : ℚ) / 10 < d.1), d.2)
        match getNextNode g lm node (if rr.1 then 0 else 1) with
        | some nxt => runStep g lm speaker fuel nxt.id rr.2
        | none => ⟨[], none, rr.2⟩
      else if node.ntype == "Dialog/Give" then
        match getNextNode g lm node 0 with
        | some nxt =>
          let rest := runStep g lm speaker fuel nxt.id rng
          ⟨QEvent.giveLogged :: rest.events, rest.pending, rest.rng⟩
        | none => ⟨[QEvent.giveLogged], none, rng⟩
      else if node.ntype == "Dialog/End" then
        ⟨[QEvent.stopDialogue], none, rng⟩
      else
        ⟨[QEvent.warnUnknown node.ntype], none, rng⟩

/-- The `while (curr?.type === "Dialog/Say")` collection loop: gather the
consecutive Say texts into one dialogue, then play it and continue from the
first non-Say successor (the `onComplete` continuation). -/
def sayChain (g : QuestGraph) (lm : List (Nat × ParsedLink))
    (speaker : String) : Nat → QGNode → List ℚ →
      List (String × String) → QGRun
  | 0, _, rng, acc => ⟨[QEvent.dialoguePlayed acc], none, rng⟩
  | fuel + 1, node, rng, acc =>
    let text := (node.widgets_values.head?).getD (node.propText.getD "")
    let acc' := acc ++ [(speaker, text)]
    match getNextNode g lm node 0 with
    | some nxt =>
      if nxt.ntype == "Dialog/Say" then
        sayChain g lm speaker fuel nxt rng acc'
      else
        let rest := runStep g lm speaker fuel nxt.id rng
        ⟨QEvent.dialoguePlayed acc' :: rest.events, rest.pending, rest.rng⟩
    | none => ⟨[QEvent.dialoguePlayed acc'], none, rng⟩

end

/-- The `onChoice` callback registered by a Choice node: selecting option
`slot` resumes the walk at the node connected to output slot `slot`, or stops
the dialogue when that slot is unconnected. -/
def selectChoice (g : QuestGraph) (lm : List (Nat × ParsedLink))
    (speaker : String) (fuel : Nat) (nodeId slot : Nat) (rng : List ℚ) :
    QGRun :=
  match getQGNode g nodeId with
  | none => ⟨[], none, rng⟩
  | some node =>
    match getNextNode g lm node slot with
    | some nxt => runStep g lm speaker fuel nxt.id rng
    | none => ⟨[QEvent.stopDialogue], none, rng⟩

/-- Model of `executeQuestGraph(graph, speakerName)`: warn on an empty node list or a
missing Start node, otherwise walk from the Start node. -/
def executeQuestGraph (g : QuestGraph) (speaker : String) (fuel : Nat)
    (rng : List ℚ) : QGRun :=
  if g.nodes.isEmpty then ⟨[QEvent.warnEmptyGraph], none, rng⟩
  else
    match g.nodes.find? (fun n => n.ntype == "Dialog/Start") with
    | some startNode =>
      runStep g (parseQuestLinks g.links) speaker fuel startNode.id rng
    | none => ⟨[QEvent.warnNoStart], none, rng⟩

/-! ## Quest graph execution, cited revision (src/src/levels/Level.ts:365-442)

This earlier revision of `executeQuestGraph` is a single synchronous walk: it
collects the texts of every `Dialog/Say` node it passes while always
following each node's first connected output link, then registers and plays
one combined dialogue. It gives no node type any other treatment — in
particular a `Dialog/Choice` node presents nothing and is stepped through
via its slot-0 link. The `while` loop is guarded by a visited set; recursion
is bounded by explicit fuel (adequate for the concrete graphs used). -/

/-- A collected dialogue line `{ speaker, text, duration }`. -/
structure QLine where
  speaker : String
  text : String
  duration : Nat
  deriving Repr, DecidableEq

/-- Observable outcome of the cited walk: its only effect is registering and
playing one combined dialogue (when any line was collected). -/
inductive SQEvent where
  | dialoguePlayed (lines : List QLine)
  deriving Repr, DecidableEq

/-- Model of the node-map construction loop: a JS `Map` keyed by `node.id`
(a later node with the same id overwrites an earlier one). -/
def buildNodeMap (nodes : List QGNode) : List (Nat × QGNode) :=
  nodes.foldl (fun m n => natMapSet m n.id n) []

/-- Model of the start-node search: the loop reassigns `startNode` on every
`Dialog/Start`, keeping the last one. -/
def findStartLast (nodes : List QGNode) : Option QGNode :=
  nodes.foldl
    (fun acc n => if n.ntype == "Dialog/Start" then some n else acc) none

/-- Model of the next-node search `for (const output of outputs)`: the first
output whose link list is non-empty and whose first link id is in the link
map yields that link's target node id; an output failing either test is
skipped. -/
def firstLinkedTarget (lm : List (Nat × ParsedLink)) :
    List QGOutput → Option Nat
  | [] => none
  | out :: rest =>
    match out.links.head? with
    | none => firstLinkedTarget lm rest
    | some linkId =>
      match natMapGet lm linkId with
      | some pl => some pl.lto
      | none => firstLinkedTarget lm rest

/-- The text a `Dialog/Say` node contributes: `widgets_values[0]` when the
widget array is non-empty, else `properties.text` when truthy, else `""`. -/
def sayNodeText (node : QGNode) : String :=
  match node.widgets_values.head? with
  | some t => t
  | none => if optTruthy node.propText then node.propText.getD "" else ""

/-- Model of the `while (currentNode && !visited.has(currentNode.id))` walk:
collect the Say texts (skipping falsy ones), follow the first connected
output link, stop on a revisit, a missing link, or a missing target node. -/
def simpleWalk (lm : List (Nat × ParsedLink)) (nm : List (Nat × QGNode))
    (speaker : String) : Nat → QGNode → List Nat → List QLine →
      List QLine
  | 0, _, _, acc => acc
  | fuel + 1, node, visited, acc =>
    if visited.contains node.id then acc
    else
      let visited' := setAdd visited node.id
      let acc' :=
        if node.ntype == "Dialog/Say" then
          let text := sayNodeText node
          if text == "" then acc
          else acc ++ [⟨speaker, text, max 2500 (text.length * 100)⟩]
        else acc
      match firstLinkedTarget lm node.outputs with
      | none => acc'
      | some nid =>
        match natMapGet nm nid with
        | none => acc'
        | some nxt => simpleWalk lm nm speaker fuel nxt visited' acc'

/-- Model of the cited `executeQuestGraph(graphData, speakerName)`: build the
link and node maps, walk from the (last) Start node collecting Say lines,
and play them as one combined dialogue; a graph with no Start node, or a
walk collecting no line, does nothing. -/
def executeQuestGraphSimple (g : QuestGraph) (speaker : String)
    (fuel : Nat) : List SQEvent :=
  let lm := parseQuestLinks g.links
  let nm := buildNodeMap g.nodes
  match findStartLast g.nodes with
  | none => []
  | some startNode =>
    let lines := simpleWalk lm nm speaker fuel startNode [] []
    if lines.isEmpty then [] else [SQEvent.dialoguePlayed lines]

/-! ## Level runtime disposal (src/src/game/levels/Level.ts `dispose`)

`Level.dispose` runs `cleanupEditor` (gizmo teardown, not entity-related),
`disposeAllEntities`, clears the trigger state and triggered set, and calls
`BaseLevel.dispose`, whose only repository-owned release is the flag-guarded
`Player.dispose` (camera / shadow generator / pipeline / scene are engine
objects outside this subsystem). -/

/-- Release events of a full Level disposal. -/
inductive DisposeEvent where
  | npcEvent (key : Nat) (e : AnimEvent)
  | portalEvent (key : Nat) (e : PortalEvent)
  | propMeshDisposed (key : Nat) (objId : Nat)
  | playerReleased
  deriving Repr, DecidableEq

/-- The Level state relevant to disposal. -/
structure LevelDisposeSt where
  npcs : List (Nat × NPCState)
  portals : List (Nat × PortalState)
  props : List (Nat × Nat)
  entityMeshIndex : List (Nat × Nat)
  npcNameIndex : List (String × Nat)
  triggerStates : List Bool
  npcDialogueTriggered : List Nat
  playerDisposed : Bool
  deriving Repr, DecidableEq

/-- Model of `disposeAllEntities()`: dispose every NPC, every portal mesh (which runs
the portal's own guarded `dispose` through its mesh-disposal hook), and every
prop, then clear all five structures. -/
def disposeAllEntities (st : LevelDisposeSt) :
    LevelDisposeSt × List DisposeEvent :=
  let npcEvents := (st.npcs.map
    (fun p => (p.2.dispose).2.map (DisposeEvent.npcEvent p.1))).flatten
  let portalEvents := (st.portals.map
    (fun p => (p.2.dispose).2.map (DisposeEvent.portalEvent p.1))).flatten
  let propEvents := st.props.map
    (fun p => DisposeEvent.propMeshDisposed p.1 p.2)
  ({ st with npcs := [], portals := [], props := [],
             entityMeshIndex := [], npcNameIndex := [] },
   npcEvents ++ portalEvents ++ propEvents)

/-- Model of `Level.dispose()`. -/
def levelDispose (st : LevelDisposeSt) :
    LevelDisposeSt × List DisposeEvent :=
  let r := disposeAllEntities st
  let st1 := { r.1 with triggerStates := [], npcDialogueTriggered := [] }
  let playerEvents :=
    if st1.playerDisposed then [] else [DisposeEvent.playerReleased]
  ({ st1 with playerDisposed := true }, r.2 ++ playerEvents)

/-! ## Multi-tick runners and event counters (used to state the temporal
claims) -/

/-- Count of NPC interaction dispatches in a tick's event list. -/
def dispatchCount (events : List TickEvent) : Nat :=
  events.countP (fun e =>
    match e with
    | TickEvent.npcDispatched _ => true
    | _ => false)

/-- Count of dispatches of the specific NPC index `i`. -/
def dispatchCountOf (i : Nat) (events : List TickEvent) : Nat :=
  events.countP (fun e => e == TickEvent.npcDispatched i)

/-- Count of firings of the specific trigger index `idx`. -/
def firedCountOf (idx : Nat) (events : List TickEvent) : Nat :=
  events.countP (fun e => e == TickEvent.triggerFired idx)

/-- Run `processTriggers` once per tick; each tick supplies the player's
current position (the rest of the world is untouched between ticks). -/
def runTriggerTicks : LevelSt → List (Option Vec3) → LevelSt × List TickEvent
  | st, [] => (st, [])
  | st, pos :: rest =>
    let r := processTriggers { st with playerPos := pos }
    let r2 := runTriggerTicks r.1 rest
    (r2.1, r.2 ++ r2.2)

/-- Per-tick external inputs to the proximity scan: the player's position and
whether a dialogue/script is active when the tick starts. -/
structure ProxEnv where
  playerPos : Option Vec3
  dialogueActive : Bool
  deriving Repr, DecidableEq

/-- Run `checkNPCProximity` once per tick under the given external inputs. -/
def runProxTicks : LevelSt → List ProxEnv → LevelSt × List TickEvent
  | st, [] => (st, [])
  | st, env :: rest =>
    let r := checkNPCProximity
      { st with playerPos := env.playerPos,
                dialogueActive := env.dialogueActive }
    let r2 := runProxTicks r.1 rest
    (r2.1, r.2 ++ r2.2)

/-- Membership in the interaction radius of NPC `i` under the tick inputs
`env`, relative to the (tick-invariant) NPC registry of `st`. -/
def envInRange (st : LevelSt) (i : Nat) (env : ProxEnv) : Prop :=
  ∃ pos, env.playerPos = some pos ∧
    ∃ npcPos, natMapGet st.npcs i = some npcPos ∧
      vecDistLt pos npcPos INTERACTION_RADIUS = true

/-! ## Concrete fixtures used by evaluation theorems and witnesses -/

/-- Registry state with two live NPCs at indices 0 and 1 (the input on which
the reindexing defect shows). -/
def c1State : Registries :=
  ⟨[(0, ⟨100, 0, some "alice"⟩), (1, ⟨101, 1, some "bob"⟩)], [], [],
   [(0, 100), (1, 101)], [("alice", 100), ("bob", 101)]⟩

/-- Quest graph Start → Say(a) → Say(b) → Choice(["X","Y"]) with both choice
slots linked to End. -/
def qgTestGraph (a b : String) : QuestGraph :=
  { nodes :=
      [⟨1, "Dialog/Start", [], none, none, none, none, [⟨[1]⟩]⟩,
       ⟨2, "Dialog/Say", [a], none, none, none, none, [⟨[2]⟩]⟩,
       ⟨3, "Dialog/Say", [b], none, none, none, none, [⟨[3]⟩]⟩,
       ⟨4, "Dialog/Choice", [], none, none, some ["X", "Y"], none,
         [⟨[4]⟩, ⟨[5]⟩]⟩,
       ⟨5, "Dialog/End", [], none, none, none, none, []⟩],
    links := [[1, 1, 0, 2], [2, 2, 0, 3], [3, 3, 0, 4], [4, 4, 0, 5],
              [5, 4, 1, 5]] }

/-- The parsed link map of `qgTestGraph` (same for every `a`, `b`). -/
def qgTestLinks : List (Nat × ParsedLink) :=
  parseQuestLinks (qgTestGraph "" "").links

/-- Spawn list with one NPC, one failing prop, one portal. -/
def demoSpawns : List LoadOutcome :=
  [LoadOutcome.npcSpawn (some "guard") none none (Except.ok 10),
   LoadOutcome.propSpawn (Except.error ()),
   LoadOutcome.portalSpawn 11]

/-- Level state sitting in editor mode with an armed in-range trigger and a
declared spotlight-override effect. -/
def c4State : LevelSt :=
  { isEditorMode := true
    playerPos := some (1, 0, 0)
    playerSpotIntensity := 1
    flashlightIntensity := 2
    vignetteWeight := none
    camRotX := 0
    camRotY := 0
    effectTime := 0
    dialogueActive := false
    registeredDialogues := []
    entities := [EntitySpawnSim.npc
      ⟨some "guard", none, none, none, none, [], []⟩]
    npcs := [(0, (0, 0, 0))]
    npcNameIndex := [("guard", (0, 0, 0))]
    npcDialogueTriggered := []
    currentInteractingNPC := none
    triggers := [⟨"guard", 5, true, [TickTriggerAction.playSound "boom"]⟩]
    triggerStates := [false]
    effects := [LevelEffect.spotlightOverride 7] }

/-- Level state with one armed, already-fired `once` trigger, used to witness
the once-only law. -/
def c3State : LevelSt :=
  { c4State with isEditorMode := false, triggerStates := [true] }

/-- Level state whose NPC 0 has already triggered its dialogue, used to
witness the per-visit re-trigger policy. -/
def c9State : LevelSt :=
  { c4State with isEditorMode := false, npcDialogueTriggered := [0] }

/-- Correctness of a live NPC registry entry with respect to the original
spawn list: its embedded index equals its key, and the spawn at that position
is an NPC spawn whose factory produced exactly this object. -/
def npcRegOk (spawns : List LoadOutcome) (p : Nat × LiveNPC) : Prop :=
  p.2.metaIndex = p.1 ∧
    ∃ nm ek as, spawns[p.1]? =
      some (LoadOutcome.npcSpawn nm ek as (Except.ok p.2.objId))

/-- Correctness of a live portal registry entry. -/
def portalRegOk (spawns : List LoadOutcome) (p : Nat × LivePortal) : Prop :=
  p.2.metaIndex = p.1 ∧
    spawns[p.1]? = some (LoadOutcome.portalSpawn p.2.objId)

/-- Correctness of a live prop registry entry. -/
def propRegOk (spawns : List LoadOutcome) (p : Nat × LiveProp) : Prop :=
  p.2.metaIndex = p.1 ∧
    spawns[p.1]? = some (LoadOutcome.propSpawn (Except.ok p.2.objId))

/-! ## Helper lemmas -/

/-- Conversion of `Char.ofNat` on a valid code point. -/
theorem char_toNat_ofNat_valid {n : Nat} (hv : n.isValidChar) :
    (Char.ofNat n).toNat = n := by
  simp [Char.ofNat, hv, Char.ofNatAux, Char.toNat, UInt32.toNat,
    BitVec.toNat_ofNatLt]

/-- ASCII lowercasing is idempotent on characters. -/
theorem char_toLower_toLower (c : Char) : c.toLower.toLower = c.toLower := by
  unfold Char.toLower
  by_cases h : c.toNat ≥ 65 ∧ c.toNat ≤ 90
  · have hv : (c.toNat + 32).isValidChar := Or.inl (by omega)
    have ht : (Char.ofNat (c.toNat + 32)).toNat = c.toNat + 32 :=
      char_toNat_ofNat_valid hv
    rw [if_pos h, ht]
    rw [if_neg (by omega)]
  · rw [if_neg h, if_neg h]

/-- ASCII lowercasing is idempotent on strings. -/
theorem str_toLower_toLower (s : String) : s.toLower.toLower = s.toLower := by
  show (s.map Char.toLower).map Char.toLower = s.map Char.toLower
  rw [String.map_eq, String.map_eq]
  simp only [List.map_map]
  congr 1
  apply List.map_congr_left
  intro c _
  exact char_toLower_toLower c

/-- Key membership decides `jsMapGet` success. -/
theorem jsMapGet_isSome {α : Type} (m : List (String × α)) (k : String) :
    (jsMapGet m k).isSome = m.any (fun p => p.1 == k) := by
  induction m with
  | nil => rfl
  | cons p rest ih =>
    by_cases h : p.1 = k
    · simp [jsMapGet, List.find?, h]
    · simp only [jsMapGet, List.find?] at *
      rw [List.any_cons]
      have hb : (p.1 == k) = false := by simpa using h
      simp [hb, ih]

/-- Keys after a `jsMapSet`. -/
theorem jsMapSet_hasKey {α : Type} (m : List (String × α)) (k k' : String)
    (v : α) :
    (jsMapSet m k v).any (fun p => p.1 == k') =
      ((k == k') || m.any (fun p => p.1 == k')) := by
  unfold jsMapSet
  by_cases h : m.any (fun p => p.1 == k)
  · rw [if_pos h, List.any_map]
    have he : ((fun p => p.1 == k') ∘ fun p : String × α =>
        if p.1 == k then (p.1, v) else p) = fun p => p.1 == k' := by
      funext p
      by_cases hp : p.1 = k <;> simp [hp]
    rw [he]
    by_cases hk : k = k'
    · subst hk
      simp [h]
    · have : (k == k') = false := by simpa using hk
      simp [this]
  · rw [if_neg h, List.any_append]
    simp [Bool.or_comm, BEq.comm]

/-- Keys of the constructed animation map: every animation contributes its
name and its lowercased name. -/
theorem buildAnimMap_hasKey (anims : List String) (k : String) :
    ((buildAnimMap anims).any (fun p => p.1 == k)) =
      anims.any (fun a => a == k || a.toLower == k) := by
  suffices h : ∀ (l : List (Nat × String)) (acc : List (String × Nat)),
      ((l.foldl (fun m p => jsMapSet (jsMapSet m p.2 p.1) p.2.toLower p.1)
          acc).any (fun p => p.1 == k)) =
      (acc.any (fun p => p.1 == k) ||
        l.any (fun p => p.2 == k || p.2.toLower == k)) by
    have hmain := h anims.enum []
    simp only [buildAnimMap, hmain, List.any_nil, Bool.false_or]
    have h2 : ∀ l : List (Nat × String),
        (l.any fun p => p.2 == k || p.2.toLower == k) =
        (l.map Prod.snd).any (fun a => a == k || a.toLower == k) := by
      intro l
      induction l with
      | nil => rfl
      | cons p rest ih => simp [ih]
    rw [h2, List.enum_map_snd]
  intro l
  induction l with
  | nil => intro acc; simp
  | cons p rest ih =>
    intro acc
    rw [List.foldl_cons, ih, List.any_cons]
    rw [jsMapSet_hasKey, jsMapSet_hasKey]
    by_cases h1 : p.2 = k <;> by_cases h2 : p.2.toLower = k <;>
      simp [h1, h2, Bool.or_assoc, Bool.or_comm, Bool.or_left_comm]

/-- Success of the substring fallback. -/
theorem findAnimSubstr_isSome (anims : List String) (name : String) :
    (findAnimSubstr anims name).isSome =
      anims.any (fun a => strIncludes a.toLower name.toLower) := by
  unfold findAnimSubstr
  have h : ∀ (l : List (Nat × String)),
      ((l.find? (fun p => strIncludes p.2.toLower name.toLower)).map
        (fun p => p.1)).isSome =
      l.any (fun p => strIncludes p.2.toLower name.toLower) := by
    intro l
    induction l with
    | nil => rfl
    | cons p rest ih =>
      by_cases hp : strIncludes p.2.toLower name.toLower = true
      · simp [List.find?, hp]
      · have hp' : strIncludes p.2.toLower name.toLower = false := by
          simpa using hp
        simp [List.find?, hp', ih]
  rw [h]
  have h2 : ∀ l : List (Nat × String),
      (l.any fun p => strIncludes p.2.toLower name.toLower) =
      (l.map Prod.snd).any (fun a => strIncludes a.toLower name.toLower) := by
    intro l
    induction l with
    | nil => rfl
    | cons p rest ih => simp [ih]
  rw [h2, List.enum_map_snd]

/-- Success of the full resolution chain. -/
theorem resolveAnim_isSome (s : NPCState) (name : String) :
    (s.resolveAnim name).isSome =
      ((jsMapGet (buildAnimMap s.anims) name).isSome ||
       (jsMapGet (buildAnimMap s.anims) name.toLower).isSome ||
       (findAnimSubstr s.anims name).isSome) := by
  unfold NPCState.resolveAnim
  cases h1 : jsMapGet (buildAnimMap s.anims) name with
  | some i => simp [h1]
  | none =>
    cases h2 : jsMapGet (buildAnimMap s.anims) name.toLower with
    | some i => simp [h2]
    | none => simp [h2]

/-- Return value of `playAnimation` on a live NPC: whether resolution
succeeded. -/
theorem playAnimation_fst (s : NPCState) (name : String)
    (hd : s.disposed = false) :
    (s.playAnimation name).1 = (s.resolveAnim name).isSome := by
  unfold NPCState.playAnimation
  rw [hd]
  cases h : s.resolveAnim name with
  | none => simp
  | some i =>
    simp only [Bool.false_eq_true, if_false, Option.isSome_some]
    unfold NPCState.playAnimGroup
    by_cases hc : s.currentAnim = some i <;> simp [hc]

/-! ## Claim theorems: NPC animation contract -/

/-- Claim C5: for every fixed animation-name list and requested name, on a
live (non-disposed) NPC `playAnimation(name)` returns `true` iff the list
contains an exact (case-sensitive), case-insensitive, or substring match for
the name; and when the resolved animation is already the currently playing
one, the call returns `true` and changes no state (no stop, no restart). -/
theorem claim_C5_animation_resolution (s : NPCState) (name : String)
    (hd : s.disposed = false) :
    ((s.playAnimation name).1 = true ↔
      ∃ a ∈ s.anims, a = name ∨ a.toLower = name.toLower ∨
        strIncludes a.toLower name.toLower = true) ∧
    (∀ i, s.resolveAnim name = some i → s.currentAnim = some i →
      s.playAnimation name = (true, s, [])) := by
  constructor
  · rw [playAnimation_fst s name hd, resolveAnim_isSome,
      jsMapGet_isSome, jsMapGet_isSome, buildAnimMap_hasKey,
      buildAnimMap_hasKey, findAnimSubstr_isSome]
    simp only [List.any_eq_true, Bool.or_eq_true, beq_iff_eq]
    constructor
    · rintro ((⟨a, ha, h | h⟩ | ⟨a, ha, h | h⟩) | ⟨a, ha, h⟩)
      · exact ⟨a, ha, Or.inl h⟩
      · refine ⟨a, ha, Or.inr (Or.inl ?_)⟩
        rw [← h]
        exact (str_toLower_toLower a).symm
      · refine ⟨a, ha, Or.inr (Or.inl ?_)⟩
        rw [h]
        exact str_toLower_toLower name
      · exact ⟨a, ha, Or.inr (Or.inl h)⟩
      · exact ⟨a, ha, Or.inr (Or.inr h)⟩
    · rintro ⟨a, ha, h | h | h⟩
      · exact Or.inl (Or.inl ⟨a, ha, Or.inl h⟩)
      · exact Or.inl (Or.inr ⟨a, ha, Or.inr h⟩)
      · exact Or.inr ⟨a, ha, h⟩
  · intro i hres hcur
    unfold NPCState.playAnimation
    rw [hd, hres]
    simp only [Bool.false_eq_true, if_false]
    unfold NPCState.playAnimGroup
    rw [if_pos hcur]

/-- Witness for claim C5, on the list `["Walk"]`, the request `"walk"`
(a case-insensitive match that resolves to the currently playing group). -/
theorem claim_C5_animation_resolution_witness :
    (NPCState.mk ["Walk"] (some 0) false).disposed = false ∧
    (((NPCState.mk ["Walk"] (some 0) false).playAnimation "walk").1 = true ↔
      ∃ a ∈ ["Walk"], a = "walk" ∨ a.toLower = "walk".toLower ∨
        strIncludes a.toLower "walk".toLower = true) ∧
    (∀ i, (NPCState.mk ["Walk"] (some 0) false).resolveAnim "walk" = some i →
      (NPCState.mk ["Walk"] (some 0) false).currentAnim = some i →
      (NPCState.mk ["Walk"] (some 0) false).playAnimation "walk" =
        (true, NPCState.mk ["Walk"] (some 0) false, [])) :=
  ⟨rfl, claim_C5_animation_resolution (NPCState.mk ["Walk"] (some 0) false)
    "walk" rfl⟩

/-- Claim C10: on a disposed NPC, `playAnimation` returns `false` and changes
no state and performs no engine action, whatever the requested name is — in
particular even when the name matches an animation in the list exactly. -/
theorem claim_C10_disposed_playAnimation (s : NPCState) (name : String) :
    NPCState.playAnimation { s with disposed := true } name =
      (false, { s with disposed := true }, []) := by
  unfold NPCState.playAnimation
  simp

/-! ## Claim theorems: disposal idempotence -/

/-- Claim C7: dispose() is idempotent on every disposable wrapper: for every
NPC, every Portal, and the Level runtime itself, a second dispose() after a
first one returns the same state and performs no release action (no engine
effect at all), guarded by the per-object disposed flag (the Level achieves
this through its cleared registries and the player's own flag). -/
theorem claim_C7_dispose_idempotent :
    (∀ s : NPCState,
      NPCState.dispose (s.dispose).1 = ((s.dispose).1, [])) ∧
    (∀ s : PortalState,
      PortalState.dispose (s.dispose).1 = ((s.dispose).1, [])) ∧
    (∀ st : LevelDisposeSt,
      levelDispose (levelDispose st).1 = ((levelDispose st).1, [])) := by
  refine ⟨?_, ?_, ?_⟩
  · intro s
    by_cases h : s.disposed <;> simp [NPCState.dispose, h]
  · intro s
    by_cases h : s.disposed <;> simp [PortalState.dispose, h]
  · intro st
    simp [levelDispose, disposeAllEntities]

/-! ## Claim theorems: factory resolution (C8) -/

/-- Claim C8: `resolveNPCConfig` resolves in the order the spec states — a
case-insensitive catalog lookup of the entity key yielding that NPC entry's
canonical asset and policy, otherwise the direct asset path normalized to a
root-relative form with the generic default policy — and it raises the
invalid-spawn-spec error exactly when neither a catalog key resolves (to an
NPC entry) nor an asset path is provided. `resolveNPCConfigSpec` transcribes
the spec's wording; the theorem identifies the two on every input. -/
theorem claim_C8_resolution_order (o : SpawnNPCOptions) :
    resolveNPCConfig o = resolveNPCConfigSpec o := by
  unfold resolveNPCConfig resolveNPCConfigSpec
  by_cases hk : optTruthy o.entityKey
  · simp only [hk, if_true]
    unfold findEntityKey
    by_cases h1 : "wife".toLower == (o.entityKey.getD "").toLower
    · simp [ENTITIES, List.find?, h1, jsMapGet]
    · by_cases h2 : "demon".toLower == (o.entityKey.getD "").toLower
      · simp [ENTITIES, List.find?, h1, h2, jsMapGet]
      · by_cases h3 : "portal".toLower == (o.entityKey.getD "").toLower
        · simp [ENTITIES, List.find?, h1, h2, h3, jsMapGet]
        · simp [ENTITIES, List.find?, h1, h2, h3, jsMapGet]
  · simp [hk]

/-! ## Claim theorems: live removal (C1) -/

/-- Claim C1 (refuted: the code clears each registry before reindexing it):
on the concrete live state with NPCs at indices 0 and 1, `removeEntityLive 0`
leaves every registry and the mesh-index map empty, whereas the claim
requires the NPC formerly at index 1 (object 101) to survive at index 0. -/
theorem claim_C1_removeEntityLive_eval :
    (c1State.removeEntityLive 0).npcs = [] ∧
    (c1State.removeEntityLive 0).entityMeshIndex = [] ∧
    natMapGet (c1State.removeEntityLive 0).npcs 0 = none ∧
    natMapGet c1State.npcs 1 = some ⟨101, 1, some "bob"⟩ := by
  refine ⟨rfl, rfl, rfl, rfl⟩

/-! ## Claim theorems: quest graph walk (C2) -/

/-- Claim C2 (refuted by the cited revision): on the graph Start → Say("A")
→ Say("B") → Choice(["X","Y"]) with both choice slots linked to End, the
cited `executeQuestGraph` (src/src/levels/Level.ts) plays the combined
two-line dialogue and nothing else — it steps through the Choice node via
its slot-0 link without presenting any interactive choice, so no option can
ever be selected. The later revision of the interpreter (the one with a
`Dialog/Choice` case) behaves as the claim states: it presents the
two-option choice after the combined dialogue, and selecting either option
runs only the End node, which stops the dialogue. -/
theorem claim_C2_quest_graph_choice_missing :
    executeQuestGraphSimple (qgTestGraph "A" "B") "npc" 6 =
      [SQEvent.dialoguePlayed
        [⟨"npc", "A", 2500⟩, ⟨"npc", "B", 2500⟩]] ∧
    executeQuestGraph (qgTestGraph "A" "B") "npc" 6 [] =
      ⟨[QEvent.dialoguePlayed [("npc", "A"), ("npc", "B")],
        QEvent.choicePresented "Choose..." ["X", "Y"]], some 4, []⟩ ∧
    selectChoice (qgTestGraph "A" "B") qgTestLinks "npc" 6 4 0 [] =
      ⟨[QEvent.stopDialogue], none, []⟩ ∧
    selectChoice (qgTestGraph "A" "B") qgTestLinks "npc" 6 4 1 [] =
      ⟨[QEvent.stopDialogue], none, []⟩ := by
  refine ⟨rfl, rfl, rfl, rfl⟩

/-! ## Claim theorems: bulk load (C6) -/

/-- Insertion at a key larger than every present key appends. -/
theorem natMapSet_fresh {α : Type} (m : List (Nat × α)) (k : Nat) (v : α)
    (h : ∀ p ∈ m, p.1 < k) : natMapSet m k v = m ++ [(k, v)] := by
  unfold natMapSet
  have hany : m.any (fun p => p.1 == k) = false := by
    rw [List.any_eq_false]
    intro p hp
    have := h p hp
    simp only [beq_iff_eq]
    omega
  rw [hany]
  simp

/-- Index shift of a list lookup across a cons. -/
theorem getElem?_cons_shift {α : Type} (s : α) (rest : List α) (i k : Nat)
    (h : i + 1 ≤ k) : (s :: rest)[k - i]? = rest[k - (i + 1)]? := by
  have hk : k - i = (k - (i + 1)) + 1 := by omega
  rw [hk]
  simp

/-- Invariant of the spawn loop: starting from registries whose keys are all
below the next index, the loop adds one entry per non-throwing spawn, keyed
and metadata-tagged by its document position. -/
theorem spawnLoop_spec (spawns : List LoadOutcome) :
    ∀ (i : Nat) (st : Registries),
    (∀ p ∈ st.npcs, p.1 < i) →
    (∀ p ∈ st.portals, p.1 < i) →
    (∀ p ∈ st.props, p.1 < i) →
    ((spawnLoop st i spawns).npcs.length +
        (spawnLoop st i spawns).portals.length +
        (spawnLoop st i spawns).props.length =
      st.npcs.length + st.portals.length + st.props.length +
        (spawns.filter LoadOutcome.succeeded).length) ∧
    (∀ p ∈ (spawnLoop st i spawns).npcs,
      p ∈ st.npcs ∨ (i ≤ p.1 ∧ p.2.metaIndex = p.1 ∧
        ∃ nm ek as, spawns[p.1 - i]? =
          some (LoadOutcome.npcSpawn nm ek as (Except.ok p.2.objId)))) ∧
    (∀ p ∈ (spawnLoop st i spawns).portals,
      p ∈ st.portals ∨ (i ≤ p.1 ∧ p.2.metaIndex = p.1 ∧
        spawns[p.1 - i]? = some (LoadOutcome.portalSpawn p.2.objId))) ∧
    (∀ p ∈ (spawnLoop st i spawns).props,
      p ∈ st.props ∨ (i ≤ p.1 ∧ p.2.metaIndex = p.1 ∧
        spawns[p.1 - i]? =
          some (LoadOutcome.propSpawn (Except.ok p.2.objId)))) := by
  induction spawns with
  | nil =>
    intro i st h1 h2 h3
    refine ⟨by simp [spawnLoop], ?_, ?_, ?_⟩ <;>
      exact fun p hp => Or.inl hp
  | cons s rest ih =>
    intro i st h1 h2 h3
    show _ ∧ _
    cases s with
    | npcSpawn nm ek as factory =>
      cases factory with
      | error e =>
        have hstep : spawnLoop st i (LoadOutcome.npcSpawn nm ek as
            (Except.error e) :: rest) = spawnLoop st (i + 1) rest := rfl
        rw [hstep]
        obtain ⟨hlen, hn, hpo, hpr⟩ :=
          ih (i + 1) st (fun p hp => Nat.lt_succ_of_lt (h1 p hp))
            (fun p hp => Nat.lt_succ_of_lt (h2 p hp))
            (fun p hp => Nat.lt_succ_of_lt (h3 p hp))
        refine ⟨by simpa [LoadOutcome.succeeded] using hlen, ?_, ?_, ?_⟩
        · intro p hp
          rcases hn p hp with h | ⟨hle, hm, nm', ek', as', hget⟩
          · exact Or.inl h
          · refine Or.inr ⟨by omega, hm, nm', ek', as', ?_⟩
            rw [getElem?_cons_shift _ _ _ _ hle]
            exact hget
        · intro p hp
          rcases hpo p hp with h | ⟨hle, hm, hget⟩
          · exact Or.inl h
          · refine Or.inr ⟨by omega, hm, ?_⟩
            rw [getElem?_cons_shift _ _ _ _ hle]
            exact hget
        · intro p hp
          rcases hpr p hp with h | ⟨hle, hm, hget⟩
          · exact Or.inl h
          · refine Or.inr ⟨by omega, hm, ?_⟩
            rw [getElem?_cons_shift _ _ _ _ hle]
            exact hget
      | ok oid =>
        have hfresh := natMapSet_fresh st.npcs i
          ⟨oid, i, some ((firstTruthy [nm, ek, as]).getD
            ("npc_" ++ toString i))⟩ h1
        have hfreshM := natMapSet_fresh st.entityMeshIndex i oid
        have hstep : spawnLoop st i (LoadOutcome.npcSpawn nm ek as
            (Except.ok oid) :: rest) =
            spawnLoop (spawnEntityAtIndex st i
              (LoadOutcome.npcSpawn nm ek as (Except.ok oid))) (i + 1)
              rest := rfl
        rw [hstep]
        set e : LiveNPC := ⟨oid, i, some ((firstTruthy [nm, ek, as]).getD
          ("npc_" ++ toString i))⟩ with he
        have hst' : (spawnEntityAtIndex st i
            (LoadOutcome.npcSpawn nm ek as (Except.ok oid))).npcs =
            st.npcs ++ [(i, e)] := by
          simp [spawnEntityAtIndex, hfresh, he]
        have hst'p : (spawnEntityAtIndex st i
            (LoadOutcome.npcSpawn nm ek as (Except.ok oid))).portals =
            st.portals := rfl
        have hst'r : (spawnEntityAtIndex st i
            (LoadOutcome.npcSpawn nm ek as (Except.ok oid))).props =
            st.props := rfl
        obtain ⟨hlen, hn, hpo, hpr⟩ :=
          ih (i + 1) _
            (by
              rw [hst']
              intro p hp
              rcases List.mem_append.mp hp with h | h
              · exact Nat.lt_succ_of_lt (h1 p h)
              · rcases List.mem_singleton.mp h with rfl
                omega)
            (by
              rw [hst'p]
              exact fun p hp => Nat.lt_succ_of_lt (h2 p hp))
            (by
              rw [hst'r]
              exact fun p hp => Nat.lt_succ_of_lt (h3 p hp))
        refine ⟨?_, ?_, ?_, ?_⟩
        · rw [hlen, hst', hst'p, hst'r]
          simp [LoadOutcome.succeeded]
          omega
        · intro p hp
          rcases hn p hp with h | ⟨hle, hm, nm', ek', as', hget⟩
          · rw [hst'] at h
            rcases List.mem_append.mp h with h | h
            · exact Or.inl h
            · rcases List.mem_singleton.mp h with rfl
              refine Or.inr ⟨Nat.le_refl i, rfl, nm, ek, as, ?_⟩
              simp [he]
          · refine Or.inr ⟨by omega, hm, nm', ek', as', ?_⟩
            rw [getElem?_cons_shift _ _ _ _ hle]
            exact hget
        · intro p hp
          rcases hpo p hp with h | ⟨hle, hm, hget⟩
          · rw [hst'p] at h
            exact Or.inl h
          · refine Or.inr ⟨by omega, hm, ?_⟩
            rw [getElem?_cons_shift _ _ _ _ hle]
            exact hget
        · intro p hp
          rcases hpr p hp with h | ⟨hle, hm, hget⟩
          · rw [hst'r] at h
            exact Or.inl h
          · refine Or.inr ⟨by omega, hm, ?_⟩
            rw [getElem?_cons_shift _ _ _ _ hle]
            exact hget
    | portalSpawn oid =>
      have hfresh := natMapSet_fresh st.portals i ⟨oid, i⟩ h2
      have hstep : spawnLoop st i (LoadOutcome.portalSpawn oid :: rest) =
          spawnLoop (spawnEntityAtIndex st i (LoadOutcome.portalSpawn oid))
            (i + 1) rest := rfl
      rw [hstep]
      have hst' : (spawnEntityAtIndex st i
          (LoadOutcome.portalSpawn oid)).portals =
          st.portals ++ [(i, ⟨oid, i⟩)] := by
        simp [spawnEntityAtIndex, hfresh]
      have hst'n : (spawnEntityAtIndex st i
          (LoadOutcome.portalSpawn oid)).npcs = st.npcs := rfl
      have hst'r : (spawnEntityAtIndex st i
          (LoadOutcome.portalSpawn oid)).props = st.props := rfl
      obtain ⟨hlen, hn, hpo, hpr⟩ :=
        ih (i + 1) _
          (by
            rw [hst'n]
            exact fun p hp => Nat.lt_succ_of_lt (h1 p hp))
          (by
            rw [hst']
            intro p hp
            rcases List.mem_append.mp hp with h | h
            · exact Nat.lt_succ_of_lt (h2 p h)
            · rcases List.mem_singleton.mp h with rfl
              omega)
          (by
            rw [hst'r]
            exact fun p hp => Nat.lt_succ_of_lt (h3 p hp))
      refine ⟨?_, ?_, ?_, ?_⟩
      · rw [hlen, hst', hst'n, hst'r]
        simp [LoadOutcome.succeeded]
        omega
      · intro p hp
        rcases hn p hp with h | ⟨hle, hm, nm', ek', as', hget⟩
        · rw [hst'n] at h
          exact Or.inl h
        · refine Or.inr ⟨by omega, hm, nm', ek', as', ?_⟩
          rw [getElem?_cons_shift _ _ _ _ hle]
          exact hget
      · intro p hp
        rcases hpo p hp with h | ⟨hle, hm, hget⟩
        · rw [hst'] at h
          rcases List.mem_append.mp h with h | h
          · exact Or.inl h
          · rcases List.mem_singleton.mp h with rfl
            exact Or.inr ⟨Nat.le_refl i, rfl, by simp⟩
        · refine Or.inr ⟨by omega, hm, ?_⟩
          rw [getElem?_cons_shift _ _ _ _ hle]
          exact hget
      · intro p hp
        rcases hpr p hp with h | ⟨hle, hm, hget⟩
        · rw [hst'r] at h
          exact Or.inl h
        · refine Or.inr ⟨by omega, hm, ?_⟩
          rw [getElem?_cons_shift _ _ _ _ hle]
          exact hget
    | propSpawn factory =>
      cases factory with
      | error e =>
        have hstep : spawnLoop st i (LoadOutcome.propSpawn
            (Except.error e) :: rest) = spawnLoop st (i + 1) rest := rfl
        rw [hstep]
        obtain ⟨hlen, hn, hpo, hpr⟩ :=
          ih (i + 1) st (fun p hp => Nat.lt_succ_of_lt (h1 p hp))
            (fun p hp => Nat.lt_succ_of_lt (h2 p hp))
            (fun p hp => Nat.lt_succ_of_lt (h3 p hp))
        refine ⟨by simpa [LoadOutcome.succeeded] using hlen, ?_, ?_, ?_⟩
        · intro p hp
          rcases hn p hp with h | ⟨hle, hm, nm', ek', as', hget⟩
          · exact Or.inl h
          · refine Or.inr ⟨by omega, hm, nm', ek', as', ?_⟩
            rw [getElem?_cons_shift _ _ _ _ hle]
            exact hget
        · intro p hp
          rcases hpo p hp with h | ⟨hle, hm, hget⟩
          · exact Or.inl h
          · refine Or.inr ⟨by omega, hm, ?_⟩
            rw [getElem?_cons_shift _ _ _ _ hle]
            exact hget
        · intro p hp
          rcases hpr p hp with h | ⟨hle, hm, hget⟩
          · exact Or.inl h
          · refine Or.inr ⟨by omega, hm, ?_⟩
            rw [getElem?_cons_shift _ _ _ _ hle]
            exact hget
      | ok oid =>
        have hfresh := natMapSet_fresh st.props i ⟨oid, i⟩ h3
        have hstep : spawnLoop st i (LoadOutcome.propSpawn
            (Except.ok oid) :: rest) =
            spawnLoop (spawnEntityAtIndex st i
              (LoadOutcome.propSpawn (Except.ok oid))) (i + 1) rest := rfl
        rw [hstep]
        have hst' : (spawnEntityAtIndex st i
            (LoadOutcome.propSpawn (Except.ok oid))).props =
            st.props ++ [(i, ⟨oid, i⟩)] := by
          simp [spawnEntityAtIndex, hfresh]
        have hst'n : (spawnEntityAtIndex st i
            (LoadOutcome.propSpawn (Except.ok oid))).npcs = st.npcs := rfl
        have hst'p : (spawnEntityAtIndex st i
            (LoadOutcome.propSpawn (Except.ok oid))).portals =
            st.portals := rfl
        obtain ⟨hlen, hn, hpo, hpr⟩ :=
          ih (i + 1) _
            (by
              rw [hst'n]
              exact fun p hp => Nat.lt_succ_of_lt (h1 p hp))
            (by
              rw [hst'p]
              exact fun p hp => Nat.lt_succ_of_lt (h2 p hp))
            (by
              rw [hst']
              intro p hp
              rcases List.mem_append.mp hp with h | h
              · exact Nat.lt_succ_of_lt (h3 p h)
              · rcases List.mem_singleton.mp h with rfl
                omega)
        refine ⟨?_, ?_, ?_, ?_⟩
        · rw [hlen, hst', hst'n, hst'p]
          simp [LoadOutcome.succeeded]
          omega
        · intro p hp
          rcases hn p hp with h | ⟨hle, hm, nm', ek', as', hget⟩
          · rw [hst'n] at h
            exact Or.inl h
          · refine Or.inr ⟨by omega, hm, nm', ek', as', ?_⟩
            rw [getElem?_cons_shift _ _ _ _ hle]
            exact hget
        · intro p hp
          rcases hpo p hp with h | ⟨hle, hm, hget⟩
          · rw [hst'p] at h
            exact Or.inl h
          · refine Or.inr ⟨by omega, hm, ?_⟩
            rw [getElem?_cons_shift _ _ _ _ hle]
            exact hget
        · intro p hp
          rcases hpr p hp with h | ⟨hle, hm, hget⟩
          · rw [hst'] at h
            rcases List.mem_append.mp h with h | h
            · exact Or.inl h
            · rcases List.mem_singleton.mp h with rfl
              exact Or.inr ⟨Nat.le_refl i, rfl, by simp⟩
          · refine Or.inr ⟨by omega, hm, ?_⟩
            rw [getElem?_cons_shift _ _ _ _ hle]
            exact hget

/-- Claim C6: after a bulk load, a failing spawn is skipped without aborting
its siblings — the number of live entities across the three registries equals
the number of spawns that did not throw, and every live entity's registry key
and embedded metadata index equal its position in the original spawn list
(where the spawn list records the corresponding successful outcome). -/
theorem claim_C6_partial_failure_load (spawns : List LoadOutcome) :
    ((spawnAllEntities spawns).npcs.length +
        (spawnAllEntities spawns).portals.length +
        (spawnAllEntities spawns).props.length =
      (spawns.filter LoadOutcome.succeeded).length) ∧
    (∀ p ∈ (spawnAllEntities spawns).npcs, npcRegOk spawns p) ∧
    (∀ p ∈ (spawnAllEntities spawns).portals, portalRegOk spawns p) ∧
    (∀ p ∈ (spawnAllEntities spawns).props, propRegOk spawns p) := by
  obtain ⟨hlen, hn, hpo, hpr⟩ := spawnLoop_spec spawns 0 Registries.empty
    (by intro p hp; cases hp) (by intro p hp; cases hp)
    (by intro p hp; cases hp)
  refine ⟨by simpa [spawnAllEntities, Registries.empty] using hlen,
    ?_, ?_, ?_⟩
  · intro p hp
    rcases hn p hp with h | ⟨_, hm, nm', ek', as', hget⟩
    · cases h
    · exact ⟨hm, nm', ek', as', by simpa using hget⟩
  · intro p hp
    rcases hpo p hp with h | ⟨_, hm, hget⟩
    · cases h
    · exact ⟨hm, by simpa using hget⟩
  · intro p hp
    rcases hpr p hp with h | ⟨_, hm, hget⟩
    · cases h
    · exact ⟨hm, by simpa using hget⟩

/-- Witness for claim C6 on a three-entry document whose middle prop spawn
throws: two live entities survive, at their original indices. -/
theorem claim_C6_partial_failure_load_witness :
    ((spawnAllEntities demoSpawns).npcs.length +
        (spawnAllEntities demoSpawns).portals.length +
        (spawnAllEntities demoSpawns).props.length =
      (demoSpawns.filter LoadOutcome.succeeded).length) ∧
    npcRegOk demoSpawns (0, ⟨10, 0, some "guard"⟩) ∧
    portalRegOk demoSpawns (2, ⟨11, 2⟩) :=
  ⟨(claim_C6_partial_failure_load demoSpawns).1,
   (claim_C6_partial_failure_load demoSpawns).2.1 (0, ⟨10, 0, some "guard"⟩)
     (by simp [demoSpawns, spawnAllEntities, spawnLoop, spawnEntityAtIndex,
       Registries.empty, natMapSet, jsMapSet, firstTruthy]),
   (claim_C6_partial_failure_load demoSpawns).2.2.1 (2, ⟨11, 2⟩)
     (by simp [demoSpawns, spawnAllEntities, spawnLoop, spawnEntityAtIndex,
       Registries.empty, natMapSet, jsMapSet, firstTruthy])⟩

/-! ## Claim theorems: trigger machinery (C3, C4) -/

/-- Trigger actions never touch the trigger bookkeeping, the NPC registry, or
the proximity set, and they emit neither trigger-fired nor NPC-dispatch
events. -/
theorem executeTriggerActions_spec (acts : List TickTriggerAction)
    (st : LevelSt) :
    (executeTriggerActions st acts).1.triggers = st.triggers ∧
    (executeTriggerActions st acts).1.triggerStates = st.triggerStates ∧
    (executeTriggerActions st acts).1.npcs = st.npcs ∧
    (executeTriggerActions st acts).1.npcNameIndex = st.npcNameIndex ∧
    (executeTriggerActions st acts).1.npcDialogueTriggered =
      st.npcDialogueTriggered ∧
    (∀ k, firedCountOf k (executeTriggerActions st acts).2 = 0) ∧
    dispatchCount (executeTriggerActions st acts).2 = 0 := by
  induction acts generalizing st with
  | nil =>
    refine ⟨rfl, rfl, rfl, rfl, rfl, fun k => rfl, rfl⟩
  | cons a rest ih =>
    cases a with
    | playDialogue v =>
      obtain ⟨i1, i2, i3, i4, i5, i6, i7⟩ := ih (playDialogue st v).1
      unfold executeTriggerActions
      refine ⟨?_, ?_, ?_, ?_, ?_, ?_, ?_⟩ <;>
        simp only [] <;>
        unfold playDialogue <;>
        unfold playDialogue at i1 i2 i3 i4 i5 i6 i7 <;>
        by_cases hc : st.registeredDialogues.contains v <;>
        simp_all [firedCountOf, dispatchCount, List.countP_cons,
          List.countP_append]
    | playSound v =>
      obtain ⟨i1, i2, i3, i4, i5, i6, i7⟩ := ih st
      unfold executeTriggerActions
      refine ⟨i1, i2, i3, i4, i5, ?_, ?_⟩ <;>
        simp_all [firedCountOf, dispatchCount, List.countP_cons]
    | setSpotlightIntensity v =>
      by_cases hp : st.playerPos.isSome
      · obtain ⟨i1, i2, i3, i4, i5, i6, i7⟩ :=
          ih { st with playerSpotIntensity := v }
        unfold executeTriggerActions
        refine ⟨?_, ?_, ?_, ?_, ?_, ?_, ?_⟩ <;>
          simp_all [firedCountOf, dispatchCount]
      · obtain ⟨i1, i2, i3, i4, i5, i6, i7⟩ := ih st
        unfold executeTriggerActions
        refine ⟨?_, ?_, ?_, ?_, ?_, ?_, ?_⟩ <;>
          simp_all [firedCountOf, dispatchCount]

/-- Vanishing count over an append. -/
theorem countP_zero_append {α : Type} (p : α → Bool) (l₁ l₂ : List α)
    (h₁ : l₁.countP p = 0) (h₂ : l₂.countP p = 0) :
    (l₁ ++ l₂).countP p = 0 := by
  rw [List.countP_append, h₁, h₂]

/-- Vanishing count over a cons. -/
theorem countP_zero_cons {α : Type} (p : α → Bool) (x : α) (l : List α)
    (hx : p x = false) (h : l.countP p = 0) : (x :: l).countP p = 0 := by
  rw [List.countP_cons, hx]
  simpa using h

/-- Step equation of the trigger loop on a cons cell. -/
theorem triggerLoop_cons (pos : Vec3) (st : LevelSt) (t : ProximityTrigger)
    (fired : Bool) (rest : List (ProximityTrigger × Bool)) (idx : Nat) :
    triggerLoop pos st ((t, fired) :: rest) idx =
      (if (t.once && fired) = true then
        let r := triggerLoop pos st rest (idx + 1)
        (r.1, fired :: r.2.1, r.2.2)
      else
        match jsMapGet st.npcNameIndex t.target with
        | none =>
          let r := triggerLoop pos st rest (idx + 1)
          (r.1, fired :: r.2.1, r.2.2)
        | some npcPos =>
          if vecDistLt pos npcPos t.radius = true then
            let r1 := executeTriggerActions st t.actions
            let r := triggerLoop pos r1.1 rest (idx + 1)
            (r.1, true :: r.2.1,
             TickEvent.triggerFired idx :: r1.2 ++ r.2.2)
          else
            let r := triggerLoop pos st rest (idx + 1)
            (r.1, fired :: r.2.1, r.2.2)) := rfl

/-- Behaviour of the trigger loop: it leaves the trigger bookkeeping, NPC
registry, name index, and proximity set intact, yields one state per input
pair, emits no NPC dispatch and no firing below its base index, and never
fires — and permanently keeps the fired state of — a `once` trigger whose
state is already `true`. -/
theorem triggerLoop_spec (pos : Vec3) :
    ∀ (l : List (ProximityTrigger × Bool)) (st : LevelSt) (base : Nat),
    ((triggerLoop pos st l base).1.triggers = st.triggers ∧
     (triggerLoop pos st l base).1.npcs = st.npcs ∧
     (triggerLoop pos st l base).1.npcNameIndex = st.npcNameIndex ∧
     (triggerLoop pos st l base).1.npcDialogueTriggered =
       st.npcDialogueTriggered) ∧
    (triggerLoop pos st l base).2.1.length = l.length ∧
    (∀ k, k < base → firedCountOf k (triggerLoop pos st l base).2.2 = 0) ∧
    dispatchCount (triggerLoop pos st l base).2.2 = 0 ∧
    (∀ j t, l[j]? = some (t, true) → t.once = true →
      (triggerLoop pos st l base).2.1[j]? = some true ∧
      firedCountOf (base + j) (triggerLoop pos st l base).2.2 = 0) := by
  intro l
  induction l with
  | nil =>
    intro st base
    exact ⟨⟨rfl, rfl, rfl, rfl⟩, rfl, fun k _ => rfl, rfl,
      fun j t hj _ => by cases hj⟩
  | cons hd rest ih =>
    intro st base
    obtain ⟨t0, fired0⟩ := hd
    have honce_false : ∀ t : ProximityTrigger,
        ¬(t0.once && fired0) = true →
        ((t0, fired0) :: rest)[0]? = some (t, true) → t.once = true →
        False := by
      intro t hcf hj honce
      simp only [List.getElem?_cons_zero, Option.some.injEq] at hj
      have h1 : t0 = t := congrArg Prod.fst hj
      have h2 : fired0 = true := congrArg Prod.snd hj
      rw [h1, h2] at hcf
      simp [honce] at hcf
    by_cases hc : (t0.once && fired0) = true
    · have hstep : triggerLoop pos st ((t0, fired0) :: rest) base =
          ((triggerLoop pos st rest (base + 1)).1,
           fired0 :: (triggerLoop pos st rest (base + 1)).2.1,
           (triggerLoop pos st rest (base + 1)).2.2) := by
        rw [triggerLoop_cons, if_pos hc]
      obtain ⟨ipres, ilen, ilow, idis, ionce⟩ := ih st (base + 1)
      rw [hstep]
      refine ⟨ipres, by simp [ilen], ?_, idis, ?_⟩
      · intro k hk
        exact ilow k (by omega)
      · intro j t hj honce
        cases j with
        | zero =>
          simp only [List.getElem?_cons_zero, Option.some.injEq] at hj
          have h2 : fired0 = true := congrArg Prod.snd hj
          refine ⟨by simp [h2], ?_⟩
          have := ilow base (by omega)
          simpa using this
        | succ j' =>
          simp only [List.getElem?_cons_succ] at hj
          obtain ⟨hs, hcnt⟩ := ionce j' t hj honce
          refine ⟨by simpa using hs, ?_⟩
          have heq : base + (j' + 1) = (base + 1) + j' := by omega
          rw [heq]
          exact hcnt
    · cases hlook : jsMapGet st.npcNameIndex t0.target with
      | none =>
        have hstep : triggerLoop pos st ((t0, fired0) :: rest) base =
            ((triggerLoop pos st rest (base + 1)).1,
             fired0 :: (triggerLoop pos st rest (base + 1)).2.1,
             (triggerLoop pos st rest (base + 1)).2.2) := by
          rw [triggerLoop_cons, if_neg hc, hlook]
        obtain ⟨ipres, ilen, ilow, idis, ionce⟩ := ih st (base + 1)
        rw [hstep]
        refine ⟨ipres, by simp [ilen], ?_, idis, ?_⟩
        · intro k hk
          exact ilow k (by omega)
        · intro j t hj honce
          cases j with
          | zero => exact absurd honce (fun h => honce_false t hc hj h)
          | succ j' =>
            simp only [List.getElem?_cons_succ] at hj
            obtain ⟨hs, hcnt⟩ := ionce j' t hj honce
            refine ⟨by simpa using hs, ?_⟩
            have heq : base + (j' + 1) = (base + 1) + j' := by omega
            rw [heq]
            exact hcnt
      | some npcPos =>
        by_cases hdist : vecDistLt pos npcPos t0.radius = true
        · have hstep : triggerLoop pos st ((t0, fired0) :: rest) base =
              ((triggerLoop pos (executeTriggerActions st t0.actions).1
                  rest (base + 1)).1,
               true :: (triggerLoop pos
                  (executeTriggerActions st t0.actions).1 rest
                  (base + 1)).2.1,
               TickEvent.triggerFired base ::
                 (executeTriggerActions st t0.actions).2 ++
                 (triggerLoop pos (executeTriggerActions st t0.actions).1
                   rest (base + 1)).2.2) := by
            rw [triggerLoop_cons, if_neg hc, hlook]
            dsimp only
            rw [if_pos hdist]
          obtain ⟨e1, e2, e3, e4, e5, e6, e7⟩ :=
            executeTriggerActions_spec t0.actions st
          obtain ⟨⟨p1, p2, p3, p4⟩, ilen, ilow, idis, ionce⟩ :=
            ih (executeTriggerActions st t0.actions).1 (base + 1)
          rw [hstep]
          refine ⟨⟨by rw [p1, e1], by rw [p2, e3], by rw [p3, e4],
            by rw [p4, e5]⟩, by simp [ilen], ?_, ?_, ?_⟩
          · intro k hk
            have hne : ((TickEvent.triggerFired base) ==
                TickEvent.triggerFired k) = false := by
              simp only [beq_eq_false_iff_ne, ne_eq,
                TickEvent.triggerFired.injEq]
              omega
            exact countP_zero_cons _ _ _ hne
              (countP_zero_append _ _ _ (e6 k) (ilow k (by omega)))
          · exact countP_zero_cons _ _ _ rfl
              (countP_zero_append _ _ _ e7 idis)
          · intro j t hj honce
            cases j with
            | zero => exact absurd honce (fun h => honce_false t hc hj h)
            | succ j' =>
              simp only [List.getElem?_cons_succ] at hj
              obtain ⟨hs, hcnt⟩ := ionce j' t hj honce
              refine ⟨by simpa using hs, ?_⟩
              have heq : base + (j' + 1) = (base + 1) + j' := by omega
              rw [heq]
              have hne : ((TickEvent.triggerFired base) ==
                  TickEvent.triggerFired ((base + 1) + j')) = false := by
                simp only [beq_eq_false_iff_ne, ne_eq,
                  TickEvent.triggerFired.injEq]
                omega
              exact countP_zero_cons _ _ _ hne
                (countP_zero_append _ _ _ (e6 _) hcnt)
        · have hstep : triggerLoop pos st ((t0, fired0) :: rest) base =
              ((triggerLoop pos st rest (base + 1)).1,
               fired0 :: (triggerLoop pos st rest (base + 1)).2.1,
               (triggerLoop pos st rest (base + 1)).2.2) := by
            rw [triggerLoop_cons, if_neg hc, hlook]
            dsimp only
            rw [if_neg hdist]
          obtain ⟨ipres, ilen, ilow, idis, ionce⟩ := ih st (base + 1)
          rw [hstep]
          refine ⟨ipres, by simp [ilen], ?_, idis, ?_⟩
          · intro k hk
            exact ilow k (by omega)
          · intro j t hj honce
            cases j with
            | zero => exact absurd honce (fun h => honce_false t hc hj h)
            | succ j' =>
              simp only [List.getElem?_cons_succ] at hj
              obtain ⟨hs, hcnt⟩ := ionce j' t hj honce
              refine ⟨by simpa using hs, ?_⟩
              have heq : base + (j' + 1) = (base + 1) + j' := by omega
              rw [heq]
              exact hcnt

/-- One `processTriggers` tick neither fires nor re-arms a `once` trigger
whose state is already `true`, and keeps the trigger list intact. -/
theorem processTriggers_once_skip (st : LevelSt) (idx : Nat)
    (t : ProximityTrigger) (ht : st.triggers[idx]? = some t)
    (honce : t.once = true) (hfired : st.triggerStates[idx]? = some true) :
    firedCountOf idx (processTriggers st).2 = 0 ∧
    (processTriggers st).1.triggers[idx]? = some t ∧
    (processTriggers st).1.triggerStates[idx]? = some true := by
  unfold processTriggers
  cases hp : st.playerPos with
  | none => exact ⟨rfl, ht, hfired⟩
  | some pos =>
    obtain ⟨⟨ptrig, _, _, _⟩, _, _, _, ionce⟩ :=
      triggerLoop_spec pos (st.triggers.zip st.triggerStates) st 0
    have hzip : (st.triggers.zip st.triggerStates)[idx]? =
        some (t, true) := by
      simp [List.getElem?_zip_eq_some, ht, hfired]
    obtain ⟨hs, hcnt⟩ := ionce idx t hzip honce
    refine ⟨by simpa using hcnt, by simpa [ptrig] using ht, by simpa using hs⟩

/-- Claim C3: a trigger declared `once` whose `triggered` flag is `true` never
executes its actions again on any subsequent update tick of the same load,
whatever positions the player takes; the flag (and the trigger itself) stays
in place across the whole run, being reset only by `initializeTriggers`
during a full level (re)load. -/
theorem claim_C3_once_trigger_never_refires (st : LevelSt)
    (ticks : List (Option Vec3)) (idx : Nat) (t : ProximityTrigger)
    (ht : st.triggers[idx]? = some t) (honce : t.once = true)
    (hfired : st.triggerStates[idx]? = some true) :
    firedCountOf idx (runTriggerTicks st ticks).2 = 0 ∧
    (runTriggerTicks st ticks).1.triggers[idx]? = some t ∧
    (runTriggerTicks st ticks).1.triggerStates[idx]? = some true ∧
    (initializeTriggers st).triggerStates =
      List.replicate st.triggers.length false := by
  refine ⟨?_, ?_, ?_, rfl⟩ <;>
  · induction ticks generalizing st with
    | nil => first
      | exact rfl
      | exact ht
      | exact hfired
    | cons pos rest ih =>
      obtain ⟨h1, h2, h3⟩ := processTriggers_once_skip
        { st with playerPos := pos } idx t (by simpa using ht) honce
        (by simpa using hfired)
      first
        | exact countP_zero_append _ _ _ h1 (ih _ h2 h3)
        | exact ih _ h2 h3

/-- Witness for claim C3: the fixture trigger (once, already fired) is not
fired across two ticks with the player standing inside its radius. -/
theorem claim_C3_once_trigger_never_refires_witness :
    c3State.triggers[0]? = some
      ⟨"guard", 5, true, [TickTriggerAction.playSound "boom"]⟩ ∧
    (⟨"guard", 5, true, [TickTriggerAction.playSound "boom"]⟩ :
      ProximityTrigger).once = true ∧
    c3State.triggerStates[0]? = some true ∧
    firedCountOf 0 (runTriggerTicks c3State
      [some (1, 0, 0), some (0, 0, 0)]).2 = 0 :=
  ⟨rfl, rfl, rfl,
   (claim_C3_once_trigger_never_refires c3State
     [some (1, 0, 0), some (0, 0, 0)] 0
     ⟨"guard", 5, true, [TickTriggerAction.playSound "boom"]⟩
     rfl rfl rfl).1⟩

/-- Trigger processing never dispatches an NPC interaction. -/
theorem processTriggers_no_dispatch (st : LevelSt) :
    dispatchCount (processTriggers st).2 = 0 := by
  unfold processTriggers
  cases hp : st.playerPos with
  | none => rfl
  | some pos =>
    obtain ⟨_, _, _, idis, _⟩ :=
      triggerLoop_spec pos (st.triggers.zip st.triggerStates) st 0
    simpa using idis

/-- Claim C4, counterexample: in editor mode, an update tick still evaluates
and fires a declarative trigger (trigger 0 fires once, playing its sound) and
still applies a declared effect (the spotlight override rewrites the player's
spotlight intensity from 1 to 7) — refuting the claim that none of the three
per-tick activities happens in editor mode. -/
theorem claim_C4_editor_tick_counterexample :
    c4State.isEditorMode = true ∧
    firedCountOf 0 (onUpdate (fun _ => 0) (1 / 60) c4State []).2 = 1 ∧
    (onUpdate (fun _ => 0) (1 / 60) c4State []).2 =
      [TickEvent.triggerFired 0, TickEvent.soundPlayed "boom"] ∧
    (onUpdate (fun _ => 0) (1 / 60) c4State []).1.playerSpotIntensity = 7 ∧
    c4State.playerSpotIntensity = 1 := by
  have hev : (onUpdate (fun _ => 0) (1 / 60) c4State []).2 =
      [TickEvent.triggerFired 0, TickEvent.soundPlayed "boom"] := by
    norm_num [onUpdate, c4State, processTriggers, triggerLoop,
      executeTriggerActions, jsMapGet, vecDistLt, distSq, List.find?]
  have hspot : (onUpdate (fun _ => 0) (1 / 60) c4State []).1.playerSpotIntensity = 7 := by
    norm_num [onUpdate, c4State, processTriggers, triggerLoop,
      executeTriggerActions, jsMapGet, vecDistLt, distSq, List.find?,
      processEffects, applyEffects, applyEffect]
  refine ⟨rfl, ?_, hev, hspot, rfl⟩
  rw [hev]
  rfl

/-- Claim C4 as amended: while in editor mode an update tick performs no NPC
proximity check and dispatches no NPC interaction, but it still processes the
declarative triggers and still applies the declared effects, exactly as a
non-editor tick would after the proximity phase. -/
theorem claim_C4_editor_mode_update (st : LevelSt) (sine : ℚ → ℚ) (dt : ℚ)
    (rng : List ℚ) :
    onUpdate sine dt { st with isEditorMode := true } rng =
      ((processEffects sine dt
          (processTriggers { st with isEditorMode := true }).1 rng).1,
        (processTriggers { st with isEditorMode := true }).2) ∧
    dispatchCount
      (onUpdate sine dt { st with isEditorMode := true } rng).2 = 0 := by
  constructor
  · simp [onUpdate]
  · have h : (onUpdate sine dt { st with isEditorMode := true } rng).2 =
        (processTriggers { st with isEditorMode := true }).2 := by
      simp [onUpdate]
    rw [h]
    exact processTriggers_no_dispatch _

/-! ## Claim theorems: NPC proximity policy (C9) -/

/-- Membership of the JS-set model. -/
theorem mem_setAdd (s : List Nat) (i j : Nat) :
    j ∈ setAdd s i ↔ (j ∈ s ∨ j = i) := by
  unfold setAdd
  by_cases h : s.contains i
  · have hm : i ∈ s := by simpa using h
    simp only [h, if_true]
    constructor
    · exact fun hj => Or.inl hj
    · rintro (hj | rfl)
      · exact hj
      · exact hm
  · rw [if_neg h]
    simp [List.mem_append]

/-- Membership after a JS-set delete. -/
theorem mem_setDelete (s : List Nat) (i j : Nat) :
    j ∈ setDelete s i ↔ (j ∈ s ∧ j ≠ i) := by
  unfold setDelete
  simp [List.mem_filter]

/-- Events that are not interaction dispatches never compare equal to one. -/
theorem nondispatch_beq_false (e : TickEvent) (k : Nat)
    (h : (match e with
      | TickEvent.npcDispatched _ => true
      | _ => false) = false) :
    (e == TickEvent.npcDispatched k) = false := by
  cases e <;> simp_all

/-- Dispatch counts of an event list headed by one dispatch whose tail holds
no dispatch. -/
theorem dispatch_counts_shape (i : Nat) (tail : List TickEvent)
    (h : ∀ e ∈ tail, (match e with
      | TickEvent.npcDispatched _ => true
      | _ => false) = false) :
    dispatchCount (TickEvent.npcDispatched i :: tail) = 1 ∧
    (∀ k, k ≠ i →
      dispatchCountOf k (TickEvent.npcDispatched i :: tail) = 0) := by
  constructor
  · unfold dispatchCount
    rw [List.countP_cons]
    have hz : tail.countP (fun e =>
        match e with
        | TickEvent.npcDispatched _ => true
        | _ => false) = 0 := by
      rw [List.countP_eq_zero]
      intro e he
      simp [h e he]
    simp [hz]
  · intro k hk
    unfold dispatchCountOf
    rw [List.countP_cons]
    have hz : tail.countP (fun e => e == TickEvent.npcDispatched k) = 0 := by
      rw [List.countP_eq_zero]
      intro e he
      simp [nondispatch_beq_false e k (h e he)]
    have hhead : (TickEvent.npcDispatched i ==
        TickEvent.npcDispatched k) = false := by
      simp only [beq_eq_false_iff_ne, ne_eq, TickEvent.npcDispatched.injEq]
      omega
    simp [hz, hhead]

/-- Dialogue playback emits no dispatch event. -/
theorem playDialogue_nodispatch (st : LevelSt) (id : String) :
    ∀ e ∈ (playDialogue st id).2, (match e with
      | TickEvent.npcDispatched _ => true
      | _ => false) = false := by
  unfold playDialogue
  split <;> simp

/-- Sound events of an interaction carry no dispatch. -/
theorem optSound_nodispatch (o : Option String) :
    ∀ e ∈ (match o with
      | some snd => [TickEvent.soundPlayed snd]
      | none => ([] : List TickEvent)), (match e with
      | TickEvent.npcDispatched _ => true
      | _ => false) = false := by
  cases o <;> simp

/-- Interact-animation events of an interaction carry no dispatch. -/
theorem optAnim_nodispatch (o : Option String) (b : Bool) (i : Nat) :
    ∀ e ∈ (match o with
      | some anim =>
        if b = true then [TickEvent.animPlayed i anim]
        else ([] : List TickEvent)
      | none => ([] : List TickEvent)), (match e with
      | TickEvent.npcDispatched _ => true
      | _ => false) = false := by
  cases o with
  | none => simp
  | some anim => split <;> simp

/-- Event-list shape of `handleNPCInteraction`: one leading dispatch of the
given index, followed by non-dispatch events only. -/
theorem handleNPCInteraction_events (st : LevelSt) (i : Nat)
    (spec : NPCSpawnSim) :
    ∃ tail, (handleNPCInteraction st i spec).2 =
        TickEvent.npcDispatched i :: tail ∧
      ∀ e ∈ tail, (match e with
        | TickEvent.npcDispatched _ => true
        | _ => false) = false := by
  unfold handleNPCInteraction
  cases hs : spec.scriptSource with
  | some src =>
    refine ⟨_, rfl, ?_⟩
    intro e he
    rcases List.mem_append.mp he with he | he
    · rcases List.mem_append.mp he with he | he
      · exact optSound_nodispatch _ e he
      · exact optAnim_nodispatch _ _ _ e he
    · simp only [List.mem_singleton] at he
      subst he
      rfl
  | none =>
    by_cases hd : spec.dialogue.isEmpty
    · by_cases hsd : spec.successDialogue.isEmpty
      · simp only [hd, hsd, Bool.not_true, Bool.false_eq_true, if_false]
        refine ⟨_, rfl, ?_⟩
        intro e he
        rcases List.mem_append.mp he with he | he
        · exact optSound_nodispatch _ e he
        · exact optAnim_nodispatch _ _ _ e he
      · simp only [hd, hsd, Bool.not_true, Bool.not_false,
          Bool.false_eq_true, if_false, if_true]
        refine ⟨_, rfl, ?_⟩
        intro e he
        rcases List.mem_append.mp he with he | he
        · rcases List.mem_append.mp he with he | he
          · exact optSound_nodispatch _ e he
          · exact optAnim_nodispatch _ _ _ e he
        · exact playDialogue_nodispatch _ _ e he
    · simp only [hd, Bool.not_false, if_true]
      refine ⟨_, rfl, ?_⟩
      intro e he
      rcases List.mem_append.mp he with he | he
      · rcases List.mem_append.mp he with he | he
        · exact optSound_nodispatch _ e he
        · exact optAnim_nodispatch _ _ _ e he
      · exact playDialogue_nodispatch _ _ e he

/-- Dialogue playback and registration leave the NPC registry and the
triggered set untouched. -/
theorem playDialogue_preserves (st : LevelSt) (id : String) :
    (playDialogue st id).1.npcs = st.npcs ∧
    (playDialogue st id).1.npcDialogueTriggered =
      st.npcDialogueTriggered := by
  unfold playDialogue
  split <;> exact ⟨rfl, rfl⟩

/-- Dispatch bookkeeping of `handleNPCInteraction`: it leaves the NPC
registry and the triggered set untouched, dispatches exactly the one NPC it
was called for, and dispatches no other index. -/
theorem handleNPCInteraction_spec (st : LevelSt) (i : Nat)
    (spec : NPCSpawnSim) :
    (handleNPCInteraction st i spec).1.npcs = st.npcs ∧
    (handleNPCInteraction st i spec).1.npcDialogueTriggered =
      st.npcDialogueTriggered ∧
    dispatchCount (handleNPCInteraction st i spec).2 = 1 ∧
    (∀ k, k ≠ i →
      dispatchCountOf k (handleNPCInteraction st i spec).2 = 0) := by
  obtain ⟨tail, htail, hnd⟩ := handleNPCInteraction_events st i spec
  obtain ⟨hc1, hc2⟩ := dispatch_counts_shape i tail hnd
  have hpres : (handleNPCInteraction st i spec).1.npcs = st.npcs ∧
      (handleNPCInteraction st i spec).1.npcDialogueTriggered =
        st.npcDialogueTriggered := by
    unfold handleNPCInteraction
    cases hs : spec.scriptSource with
    | some src => exact ⟨rfl, rfl⟩
    | none =>
      by_cases hd : spec.dialogue.isEmpty
      · by_cases hsd : spec.successDialogue.isEmpty
        · simp only [hd, hsd, Bool.not_true, Bool.false_eq_true, if_false]
          exact ⟨trivial, trivial⟩
        · simp only [hd, hsd, Bool.not_true, Bool.not_false,
            Bool.false_eq_true, if_false, if_true]
          unfold registerDialogue
          split <;> exact playDialogue_preserves _ _
      · simp only [hd, Bool.not_false, if_true]
        unfold registerDialogue
        split <;> exact playDialogue_preserves _ _
  exact ⟨hpres.1, hpres.2, by rw [htail]; exact hc1,
    fun k hk => by rw [htail]; exact hc2 k hk⟩

/-- Step equation of the proximity scan on the empty list. -/
theorem proxScan_nil (pos : Vec3) (st : LevelSt) (i : Nat) :
    proxScan pos st [] i = (st, []) := rfl

/-- Step equation of the proximity scan on an NPC-type spawn. -/
theorem proxScan_cons_npc (pos : Vec3) (st : LevelSt) (spec : NPCSpawnSim)
    (rest : List EntitySpawnSim) (i : Nat) :
    proxScan pos st (EntitySpawnSim.npc spec :: rest) i =
      (match natMapGet st.npcs i with
      | none => proxScan pos st rest (i + 1)
      | some npcPos =>
        if vecDistLt pos npcPos INTERACTION_RADIUS &&
            !(st.npcDialogueTriggered.contains i) then
          handleNPCInteraction
            { st with npcDialogueTriggered :=
                setAdd st.npcDialogueTriggered i } i spec
        else if !(vecDistLt pos npcPos INTERACTION_RADIUS) &&
            st.npcDialogueTriggered.contains i then
          proxScan pos
            { st with npcDialogueTriggered :=
                setDelete st.npcDialogueTriggered i } rest (i + 1)
        else
          proxScan pos st rest (i + 1)) := rfl

/-- Step equation of the proximity scan on a portal spawn. -/
theorem proxScan_cons_portal (pos : Vec3) (st : LevelSt)
    (rest : List EntitySpawnSim) (i : Nat) :
    proxScan pos st (EntitySpawnSim.portal :: rest) i =
      proxScan pos st rest (i + 1) := rfl

/-- Step equation of the proximity scan on a prop spawn. -/
theorem proxScan_cons_prop (pos : Vec3) (st : LevelSt)
    (rest : List EntitySpawnSim) (i : Nat) :
    proxScan pos st (EntitySpawnSim.prop :: rest) i =
      proxScan pos st rest (i + 1) := rfl

/-- Behaviour of the proximity scan: the NPC registry is untouched, at most
one interaction is dispatched per scan, and an NPC already in the triggered
set stays there — and is never dispatched — as long as the player is within
its radius whenever it is live. -/
theorem proxScan_spec (pos : Vec3) :
    ∀ (entities : List EntitySpawnSim) (st : LevelSt) (base : Nat),
    (proxScan pos st entities base).1.npcs = st.npcs ∧
    dispatchCount (proxScan pos st entities base).2 ≤ 1 ∧
    (∀ i, i ∈ st.npcDialogueTriggered →
      (∀ q, natMapGet st.npcs i = some q →
        vecDistLt pos q INTERACTION_RADIUS = true) →
      i ∈ (proxScan pos st entities base).1.npcDialogueTriggered ∧
      dispatchCountOf i (proxScan pos st entities base).2 = 0) := by
  intro entities
  induction entities with
  | nil =>
    intro st base
    rw [proxScan_nil]
    exact ⟨rfl, by simp [dispatchCount], fun i hi _ => ⟨hi, rfl⟩⟩
  | cons spawn rest ih =>
    intro st base
    cases spawn with
    | portal =>
      rw [proxScan_cons_portal]
      exact ih st (base + 1)
    | prop =>
      rw [proxScan_cons_prop]
      exact ih st (base + 1)
    | npc spec =>
      rw [proxScan_cons_npc]
      cases hget : natMapGet st.npcs base with
      | none => exact ih st (base + 1)
      | some npcPos =>
        dsimp only
        by_cases hc1 : (vecDistLt pos npcPos INTERACTION_RADIUS &&
            !(st.npcDialogueTriggered.contains base)) = true
        · rw [if_pos hc1]
          obtain ⟨e1, e2, e3, e4⟩ := handleNPCInteraction_spec
            { st with npcDialogueTriggered :=
                setAdd st.npcDialogueTriggered base } base spec
          have hnc : base ∉ st.npcDialogueTriggered := by
            have := (Bool.and_eq_true _ _).mp hc1 |>.2
            simpa using this
          refine ⟨e1, by omega, ?_⟩
          intro i hi hrange
          have hne : i ≠ base := fun h => hnc (h ▸ hi)
          refine ⟨?_, e4 i hne⟩
          rw [e2]
          exact (mem_setAdd _ _ _).mpr (Or.inl hi)
        · rw [if_neg hc1]
          by_cases hc2 : (!(vecDistLt pos npcPos INTERACTION_RADIUS) &&
              st.npcDialogueTriggered.contains base) = true
          · rw [if_pos hc2]
            have hdist : vecDistLt pos npcPos INTERACTION_RADIUS = false := by
              have := (Bool.and_eq_true _ _).mp hc2 |>.1
              simpa using this
            obtain ⟨i1, i2, i3⟩ := ih
              { st with npcDialogueTriggered :=
                  setDelete st.npcDialogueTriggered base } (base + 1)
            refine ⟨i1, i2, ?_⟩
            intro i hi hrange
            have hne : i ≠ base := by
              intro h
              subst h
              have := hrange npcPos hget
              rw [this] at hdist
              cases hdist
            exact i3 i ((mem_setDelete _ _ _).mpr ⟨hi, hne⟩) hrange
          · rw [if_neg hc2]
            exact ih st (base + 1)

/-- Range-membership only depends on the NPC registry, which the scan leaves
intact. -/
theorem envInRange_congr (st st' : LevelSt) (i : Nat) (env : ProxEnv)
    (h : st'.npcs = st.npcs) (he : envInRange st i env) :
    envInRange st' i env := by
  unfold envInRange at *
  rw [h]
  exact he

/-- Per-tick facts of `checkNPCProximity` needed for the policy claim. -/
theorem checkNPCProximity_spec (st : LevelSt) :
    (checkNPCProximity st).1.npcs = st.npcs ∧
    dispatchCount (checkNPCProximity st).2 ≤ 1 ∧
    (st.dialogueActive = true → checkNPCProximity st = (st, [])) ∧
    (∀ i, i ∈ st.npcDialogueTriggered →
      (∀ pos, st.playerPos = some pos →
        ∃ q, natMapGet st.npcs i = some q ∧
          vecDistLt pos q INTERACTION_RADIUS = true) →
      i ∈ (checkNPCProximity st).1.npcDialogueTriggered ∧
      dispatchCountOf i (checkNPCProximity st).2 = 0) := by
  unfold checkNPCProximity
  cases hp : st.playerPos with
  | none =>
    exact ⟨rfl, by simp [dispatchCount], fun _ => rfl,
      fun i hi _ => ⟨hi, rfl⟩⟩
  | some pos =>
    dsimp only
    cases hd : st.dialogueActive with
    | true =>
      rw [if_pos rfl]
      exact ⟨rfl, by simp [dispatchCount], fun _ => rfl,
        fun i hi _ => ⟨hi, rfl⟩⟩
    | false =>
      rw [if_neg (by simp)]
      obtain ⟨s1, s2, s3⟩ := proxScan_spec pos st.entities st 0
      refine ⟨s1, s2, fun h => (Bool.false_ne_true h).elim, ?_⟩
      intro i hi hrange
      obtain ⟨q, hq, hdist⟩ := hrange pos rfl
      refine s3 i hi ?_
      intro q' hq'
      rw [hq] at hq'
      injection hq' with h
      subst h
      exact hdist

/-- Claim C9: (a) each tick dispatches at most one NPC interaction (the scan
stops at the first in-range untriggered NPC); (b) the whole scan is skipped
while a dialogue or script is active; (c) an NPC that has triggered is not
dispatched again over any run of ticks during which the player stays
continuously within its interaction radius. -/
theorem claim_C9_proximity_dispatch_policy :
    (∀ st : LevelSt, dispatchCount (checkNPCProximity st).2 ≤ 1) ∧
    (∀ st : LevelSt, st.dialogueActive = true →
      checkNPCProximity st = (st, [])) ∧
    (∀ (st : LevelSt) (envs : List ProxEnv) (i : Nat),
      i ∈ st.npcDialogueTriggered →
      (∀ env ∈ envs, envInRange st i env) →
      dispatchCountOf i (runProxTicks st envs).2 = 0) := by
  refine ⟨fun st => (checkNPCProximity_spec st).2.1,
    fun st h => (checkNPCProximity_spec st).2.2.1 h, ?_⟩
  intro st envs
  induction envs generalizing st with
  | nil => intro i _ _; rfl
  | cons env rest ih =>
    intro i hi hrange
    have henv := hrange env (List.mem_cons_self _ _)
    obtain ⟨s1, _, _, s4⟩ := checkNPCProximity_spec
      { st with playerPos := env.playerPos,
                dialogueActive := env.dialogueActive }
    obtain ⟨hmem, hcnt⟩ := s4 i hi (by
      intro pos hpos
      obtain ⟨pos₀, hpos₀, q, hq, hdist⟩ := henv
      have hpos2 : env.playerPos = some pos := hpos
      rw [hpos₀] at hpos2
      injection hpos2 with h
      subst h
      exact ⟨q, hq, hdist⟩)
    have hrest : dispatchCountOf i (runProxTicks
        (checkNPCProximity
          { st with playerPos := env.playerPos,
                    dialogueActive := env.dialogueActive }).1 rest).2
        = 0 := by
      refine ih _ i hmem ?_
      intro env' henv'
      exact envInRange_congr st _ i env' s1 (hrange env'
        (List.mem_cons_of_mem _ henv'))
    show dispatchCountOf i (_ ++ _) = 0
    exact countP_zero_append _ _ _ hcnt hrest

/-- Witness for claim C9: on the fixture state whose NPC 0 has already
triggered, a tick with the player inside the radius dispatches nothing, a
tick with a dialogue active is a complete no-op, and a single scan never
dispatches more than once. -/
theorem claim_C9_proximity_dispatch_policy_witness :
    dispatchCount (checkNPCProximity c9State).2 ≤ 1 ∧
    checkNPCProximity { c9State with dialogueActive := true } =
      ({ c9State with dialogueActive := true }, []) ∧
    dispatchCountOf 0 (runProxTicks c9State
      [⟨some (1, 0, 0), false⟩]).2 = 0 :=
  ⟨claim_C9_proximity_dispatch_policy.1 c9State,
   claim_C9_proximity_dispatch_policy.2.1 _ rfl,
   claim_C9_proximity_dispatch_policy.2.2 c9State
     [⟨some (1, 0, 0), false⟩] 0 (by simp [c9State])
     (by
       intro env henv
       simp only [List.mem_singleton] at henv
       subst henv
       refine ⟨(1, 0, 0), rfl, (0, 0, 0), rfl, ?_⟩
       norm_num [vecDistLt, distSq, INTERACTION_RADIUS])⟩

end VxlBaby
